import Mathlib

/-!
# Verification of the azure-cloud-provider charm's manifest reconciliation core

Shallow embedding of `src/charm.py`, `src/provider_manifests.py` and
`src/disk_manifests.py` (charmed-kubernetes/charm-azure-cloud-provider).

Python dictionaries are modelled as insertion-ordered association lists
(`List (String × Val)`), matching CPython dict semantics: assignment to an
existing key overwrites in place keeping its position, assignment to a fresh
key appends, deletion removes the entry, and iteration follows insertion
order.  Kubernetes resource documents are modelled by a flat `Doc` structure
carrying exactly the fields the repository's patches read or write.
-/

namespace AzureCharm

/-- A node taint, as delivered by the kube-control relation
(`key` / `value` / `effect`, duck-typed compatibly with a toleration).
A `None` key would make the source's substring / set-membership tests raise,
so `key` is modelled as a plain string. -/
structure Taint where
  key : String
  value : Option String
  effect : Option String
  deriving DecidableEq, Repr

/-- A pod toleration (lightkube `Toleration` model; dataclass fields are
declared in alphabetical order `effect, key, operator, tolerationSeconds,
value`, which matters for positional construction in the source). -/
structure Toleration where
  key : String
  value : Option String
  effect : Option String
  operator : Option String
  tolerationSeconds : Option Int
  deriving DecidableEq, Repr

/-- A Python value as it occurs in the configuration snapshots and the
secret JSON payloads of this charm: `None`, strings, integers, booleans,
non-integral numeric literals (kept as their literal text; the source never
computes with them), string-valued mappings (node selectors), and lists of
taints. -/
inductive Val where
  | none
  | str (s : String)
  | int (n : Int)
  | bool (b : Bool)
  | num (lit : String)
  | smap (entries : List (String × String))
  | taints (ts : List Taint)
  deriving DecidableEq, Repr

/-- Python truthiness of a `Val` (`bool(v)`). -/
def truthy : Val → Bool
  | .none => false
  | .str s => s != ""
  | .int n => n != 0
  | .bool b => b
  | .num lit => lit != "0.0"
  | .smap entries => !entries.isEmpty
  | .taints ts => !ts.isEmpty

/-! ## Python dict primitives over association lists -/

/-- `d.get(k)` / `d[k]`-lookup: first (only) entry with key `k`. -/
def pyGet {V : Type} (d : List (String × V)) (k : String) : Option V :=
  match d with
  | [] => Option.none
  | (k', v) :: rest => if k' = k then some v else pyGet rest k

/-- `d[k] = v`: overwrite in place if present, else append. -/
def pySet {V : Type} (d : List (String × V)) (k : String) (v : V) :
    List (String × V) :=
  match d with
  | [] => [(k, v)]
  | (k', v') :: rest =>
    if k' = k then (k, v) :: rest else (k', v') :: pySet rest k v

/-- `del d[k]` / `d.pop(k, default)` (the removal part; a Python dict holds
the key at most once). -/
def pyPop {V : Type} (d : List (String × V)) (k : String) :
    List (String × V) :=
  match d with
  | [] => []
  | (k', v) :: rest => if k' = k then pyPop rest k else (k', v) :: pyPop rest k

/-- `d.update(kvs)`: assign the pairs left to right. -/
def pyUpdate {V : Type} (d : List (String × V)) (kvs : List (String × V)) :
    List (String × V) :=
  kvs.foldl (fun acc kv => pySet acc kv.1 kv.2) d

/-- Pop a whole batch of keys (a `for key in KEYS: d.pop(key, None)` loop). -/
def pyPopAll {V : Type} (d : List (String × V)) (ks : List String) :
    List (String × V) :=
  ks.foldl (fun acc k => pyPop acc k) d

/-- Truthiness of `d.get(k)` (an absent key reads as `None`, hence falsy). -/
def configTruthy (d : List (String × Val)) (k : String) : Bool :=
  match pyGet d k with
  | some v => truthy v
  | Option.none => false

/-! ## String helpers (Python `str.split(sep)` and substring containment) -/

/-- Worker for single-character `str.split`: splits at every occurrence of
`sep`, keeping empty parts, exactly like Python. -/
def splitCharAux (sep : Char) : List Char → List Char → List (List Char)
  | [], acc => [acc.reverse]
  | c :: cs, acc =>
    if c = sep then acc.reverse :: splitCharAux sep cs []
    else splitCharAux sep cs (c :: acc)

/-- Python `s.split(sep)` for a single-character separator. -/
def splitChar (sep : Char) (s : String) : List String :=
  (splitCharAux sep s.data []).map String.mk

/-- List-level prefix test used by the substring search. -/
def startsWithL : List Char → List Char → Bool
  | [], _ => true
  | _ :: _, [] => false
  | a :: as, b :: bs => a = b && startsWithL as bs

def containsSubL (needle : List Char) : List Char → Bool
  | [] => startsWithL needle []
  | c :: cs => startsWithL needle (c :: cs) || containsSubL needle cs

/-- Python `needle in hay` on strings. -/
def strContains (hay needle : String) : Bool :=
  containsSubL needle.data hay.data

/-- First character upper-cased (enough of `str.title`-style capitalisation
for the all-lowercase hyphenated keys this charm camelizes). -/
def capitalizeWord (s : String) : String :=
  match s.data with
  | [] => ""
  | c :: cs => String.mk (c.toUpper :: cs)

/-- `humps.camelize` restricted to the lowercase hyphen-separated
configuration keys the source applies it to: `"aad-client-id" ↦
"aadClientId"`. -/
def camelize (k : String) : String :=
  match splitChar '-' k with
  | [] => k
  | p :: ps => p ++ String.join (ps.map capitalizeWord)

/-! ## Kubernetes document model

`Doc` flattens the fields the repository's patches touch.  For Deployments
and DaemonSets, `replicas`/`selectorMatchLabels` live on `spec` and
`nodeSelector`/`tolerations`/`topologySpreadConstraints`/`containers` on
`spec.template.spec`; for Pods the pod-spec fields live on `spec` directly.
`stringData` holds each Secret data entry as its parsed JSON object (the
source round-trips through `json.loads`/`json.dumps`, which is the identity
on the object it manipulates). -/

structure TopologySpreadConstraint where
  maxSkew : Int
  topologyKey : String
  whenUnsatisfiable : String
  matchLabels : List (String × String)
  deriving DecidableEq, Repr

structure Container where
  name : String
  image : String
  args : List String
  command : List String
  deriving DecidableEq, Repr

structure Doc where
  kind : String
  name : String
  labels : List (String × String)
  replicas : Option Int
  selectorMatchLabels : List (String × String)
  nodeSelector : Option (List (String × String))
  tolerations : List Toleration
  topologySpreadConstraints : List TopologySpreadConstraint
  containers : List Container
  stringData : List (String × List (String × Val))
  deriving DecidableEq, Repr

/-- `next(filter(lambda c: c.name == nm, containers), None)`. -/
def findContainer (cs : List Container) (nm : String) : Option Container :=
  cs.find? (fun c => c.name == nm)

/-- In-place mutation of the first container named `nm` (the object returned
by `next(filter(...))` is an element of the list, so mutating it rewrites
that one element). -/
def updateFirstContainer (cs : List Container) (nm : String)
    (f : Container → Container) : List Container :=
  match cs with
  | [] => []
  | c :: rest =>
    if c.name = nm then f c :: rest else c :: updateFirstContainer rest nm f

/-- `l[-1] = x` on a Python list (callers guard against the empty list). -/
def setLast {α : Type} (x : α) : List α → List α
  | [] => []
  | [_] => [x]
  | c :: rest => c :: setLast x rest

/-- `str(v)` as used by f-string interpolation in `_update_args`; only
string values reach it in practice (`cluster-tag` comes from
`get_cluster_tag()`), the other arms mirror Python `str` where meaningful. -/
def pyStr : Val → String
  | .none => "None"
  | .str s => s
  | .int n => toString n
  | .bool b => if b then "True" else "False"
  | .num lit => lit
  | .smap _ => "<dict>"
  | .taints _ => "<taints>"

/-- `config.get("control-node-taints", [])`; the construction in
`AzureProviderManifests.config` only ever stores a list of taints under this
key. -/
def configTaints (cfg : List (String × Val)) : List Taint :=
  match pyGet cfg "control-node-taints" with
  | some (Val.taints ts) => ts
  | _ => []

/-- The `missing_tolerations` comprehension shared by
`UpdateNode.__call__` and `UpdateController._update_args` in
`provider_manifests.py`: the configured control-node taints whose key is
not yet tolerated (the current key set is computed once, before
appending), as tolerations built via
`Toleration(key=.., value=.., effect=..)`. -/
def missingTolerations (cfg : List (String × Val))
    (tols : List Toleration) : List Toleration :=
  ((configTaints cfg).filter
      (fun t => !(tols.map (·.key)).contains t.key)).map
    (fun t => Toleration.mk t.key t.value t.effect Option.none Option.none)

/-- `obj.spec.template.spec.tolerations += missing_tolerations`. -/
def addMissingTolerations (cfg : List (String × Val))
    (tols : List Toleration) : List Toleration :=
  tols ++ missingTolerations cfg tols

namespace Provider

/-! ### `src/provider_manifests.py` -/

def SECRET_NAME : String := "azure-cloud-config"

/-- `UpdateSecret.REQUIRED` (a `set` literal in the source; listed here in
source order — no claim depends on iteration order of this set). -/
def updateSecretRequired : List String :=
  ["aad-client-id", "aad-client-secret", "resource-group", "location",
   "subnet-name", "security-group-name", "subscription-id", "tenant-id",
   "vnet-name", "vnet-resource-group"]

/-- `UpdateSecret.OPTIONAL`. -/
def updateSecretOptional : List String :=
  ["load-balancer-sku", "primary-availability-set-name",
   "primary-scale-set-name", "route-table-name", "vm-type"]

/-- The guard `any(s is self.manifests.config.get(s) for s in self.REQUIRED)`
exactly as written in the source: it tests *object identity between the key
string `s` and the value* `config.get(s)`.  For an absent key the lookup
yields `None` and `s is None` is `False`; identity between distinct objects
implies equality, so the test is modelled as equality of the value with
`Val.str s` (the only situation in which CPython could possibly answer
`True`). -/
def secretGuard (cfg : List (String × Val)) : Bool :=
  updateSecretRequired.any (fun s => pyGet cfg s == some (Val.str s))

/-- The payload rewrite of `UpdateSecret.__call__` (lines 53-60), shared in
shape with `WriteSecret.__call__` of `disk_manifests.py`: merge the
camelized required entries, drop every camelized optional key, then merge
the camelized truthy optional entries. -/
def secretPayload (required optional : List String)
    (cfg : List (String × Val)) (base : List (String × Val)) :
    List (String × Val) :=
  let requiredEntries := cfg.filter (fun kv => required.contains kv.1)
  let optionalEntries :=
    cfg.filter (fun kv => optional.contains kv.1 && truthy kv.2)
  let j := pyUpdate base (requiredEntries.map (fun kv => (camelize kv.1, kv.2)))
  let j := pyPopAll j (optional.map camelize)
  pyUpdate j (optionalEntries.map (fun kv => (camelize kv.1, kv.2)))

/-- `UpdateSecret.__call__`: patch the Secret named `azure-cloud-config`.
`none` models an uncaught exception (`KeyError` when the default manifest
carries no `azure.json` entry). -/
def updateSecret (cfg : List (String × Val)) (obj : Doc) : Option Doc :=
  if !(obj.kind == "Secret" && obj.name == SECRET_NAME) then some obj
  else if secretGuard cfg then some obj
  else
    match pyGet obj.stringData "azure.json" with
    | Option.none => Option.none
    | some azureJson =>
      some { obj with
             stringData := pySet obj.stringData "azure.json"
               (secretPayload updateSecretRequired updateSecretOptional cfg
                 azureJson) }

/-- Second half of `UpdateNode.__call__` (lines 87-93), acting on the
document whose tolerations were already extended: force
`--wait-routes=false` in the last element of the matching container's
command (the `assert` raises — modelled as `none` — when the flag is
absent; likewise `command[-1]` on an empty command raises `IndexError`). -/
def updateNodeCommand (obj : Doc) : Option Doc :=
  match findContainer obj.containers "cloud-node-manager" with
  | Option.none => some obj
  | some c =>
    match c.command.getLast? with
    | Option.none => Option.none
    | some lastCmd =>
      if strContains lastCmd "--wait-routes" then
        some { obj with
               containers := updateFirstContainer obj.containers
                 "cloud-node-manager"
                 (fun c => { c with command := setLast "--wait-routes=false" c.command }) }
      else Option.none

/-- `UpdateNode.__call__`: extend tolerations of the `cloud-node-manager`
DaemonSet, then rewrite the node-manager container command. -/
def updateNode (cfg : List (String × Val)) (obj : Doc) : Option Doc :=
  if !(obj.kind == "DaemonSet" && obj.name == "cloud-node-manager") then
    some obj
  else
    updateNodeCommand
      { obj with tolerations := addMissingTolerations cfg obj.tolerations }

/-- `arg.split("=")` fed to `dict(...)`: only a two-part split yields a
key/value pair; anything else makes `dict` raise `ValueError`. -/
def parseArg (arg : String) : Option (String × String) :=
  match splitChar '=' arg with
  | [k, v] => some (k, v)
  | _ => Option.none

/-- One step of the `dict(...)` construction: a malformed argument (or an
earlier failure) poisons the whole parse. -/
def parseArgsStep (acc : Option (List (String × String))) (arg : String) :
    Option (List (String × String)) :=
  acc.bind (fun d => (parseArg arg).map (fun kv => pySet d kv.1 kv.2))

/-- `dict(arg.split("=") for arg in args)`. -/
def parseArgs (args : List String) : Option (List (String × String)) :=
  args.foldl parseArgsStep (some [])

/-- The `if cluster_tag: arguments["--cluster-name"] = cluster_tag` step of
`_update_args`. -/
def clusterNameOp (cfg : List (String × Val))
    (arguments : List (String × String)) : List (String × String) :=
  match pyGet cfg "cluster-tag" with
  | some v =>
    if truthy v then pySet arguments "--cluster-name" (pyStr v)
    else arguments
  | Option.none => arguments

/-- The dict manipulations of `_update_args`: force two flags to
`"false"`, drop the two OPTIONAL flags (`--cluster-cidr`,
`--route-reconciliation-period`; set iteration order is irrelevant as the
pops commute), and set `--cluster-name` from a truthy `cluster-tag`. -/
def argsOps (cfg : List (String × Val))
    (arguments : List (String × String)) : List (String × String) :=
  clusterNameOp cfg
    (pyPop
      (pyPop
        (pySet (pySet arguments "--allocate-node-cidrs" "false")
          "--configure-cloud-routes" "false")
        "--cluster-cidr")
      "--route-reconciliation-period")

/-- `[f"{key}={value}" for key, value in arguments.items()]`. -/
def serializeArgs (d : List (String × String)) : List String :=
  d.map (fun kv => kv.1 ++ "=" ++ kv.2)

/-- The container-argument rewrite of `UpdateController._update_args`:
parse `key=value` args, apply the dict manipulations, re-serialise in dict
order. -/
def updateArgsContainer (cfg : List (String × Val)) (c : Container) :
    Option Container :=
  (parseArgs c.args).map (fun arguments =>
    { c with args := serializeArgs (argsOps cfg arguments) })

/-- The container-rewrite half of `UpdateController._update_args` over a
pod spec (lines 109-120). -/
def updateArgsSpecContainers (cfg : List (String × Val)) (obj : Doc) :
    Option Doc :=
  match findContainer obj.containers "cloud-controller-manager" with
  | Option.none => some obj
  | some c =>
    (updateArgsContainer cfg c).map (fun c' =>
      { obj with
        containers := updateFirstContainer obj.containers
          "cloud-controller-manager" (fun _ => c') })

/-- `UpdateController._update_args` over a pod spec: rewrite the
`cloud-controller-manager` container's args, then append missing
control-node tolerations. -/
def updateArgsSpec (cfg : List (String × Val)) (obj : Doc) : Option Doc :=
  (updateArgsSpecContainers cfg obj).map
    (fun d => { d with tolerations := addMissingTolerations cfg d.tolerations })

/-- `UpdateControllerPod.__call__`. -/
def updateControllerPod (cfg : List (String × Val)) (obj : Doc) : Option Doc :=
  if !(obj.kind == "Pod" && obj.name == "cloud-controller-manager") then
    some obj
  else updateArgsSpec cfg obj

/-- `UpdateControllerDeployment.__call__` (provider): bail out unless the
configured `control-node-selector` is a dict; otherwise replace the node
selector, override replicas when a truthy configured count differs, install
the fixed topology-spread constraint (selector copied from the document's
own `spec.selector.matchLabels`), and run `_update_args` on the pod
template spec. -/
def updateControllerDeployment (cfg : List (String × Val)) (obj : Doc) :
    Option Doc :=
  if !(obj.kind == "Deployment" && obj.name == "cloud-controller-manager") then
    some obj
  else
    match pyGet cfg "control-node-selector" with
    | some (Val.smap ns) =>
      let obj := { obj with nodeSelector := some ns }
      let obj :=
        match pyGet cfg "replicas" with
        | some (Val.int n) =>
          if n != 0 && obj.replicas != some n then
            { obj with replicas := some n }
          else obj
        | _ => obj
      let obj :=
        { obj with
          topologySpreadConstraints :=
            [⟨1, "kubernetes.io/hostname", "DoNotSchedule",
              obj.selectorMatchLabels⟩] }
      updateArgsSpec cfg obj
    | _ => some obj

end Provider

/-- The replicas-override arm shared verbatim by both
`UpdateControllerDeployment.__call__` bodies (`if replicas and
obj.spec.replicas != replicas: obj.spec.replicas = replicas`), split out as
a named stage; it is definitionally equal to the inline `match` in
`Provider.updateControllerDeployment` and `Disk.updateControllerDeployment`
above. -/
def replicasStage (cfg : List (String × Val)) (obj : Doc) : Doc :=
  match pyGet cfg "replicas" with
  | some (Val.int n) =>
    if n != 0 && obj.replicas != some n then { obj with replicas := some n }
    else obj
  | _ => obj

/-! ### External manifest-library transforms (collaborators, not repository
code) -/

/-- Modelled from the spec: `ManifestLabel` from the external manifest
library adds fixed ownership/management labels to every document's
metadata (label-injection transform of §4.2). -/
def manifestLabel (appName manifestName : String) (obj : Doc) : Doc :=
  { obj with
    labels := pySet (pySet obj.labels "juju.io/application" appName)
      "juju.io/manifest" manifestName }

/-- Last `/`-separated component of an image reference. -/
def lastImageComponent (image : String) : String :=
  ((splitChar '/' image).getLast?).getD image

/-- The per-registry image rewrite applied by `ConfigRegistry` when a
registry is configured. -/
def registryRewrite (r : String) (obj : Doc) : Doc :=
  if r != "" then
    { obj with
      containers := obj.containers.map (fun c =>
        { c with image := r ++ "/" ++ lastImageComponent c.image }) }
  else obj

/-- Modelled from the spec: `ConfigRegistry` from the external manifest
library rewrites each container image reference to use the configured
`image-registry` prefix, leaving documents unchanged when no registry is
configured (registry-rewrite transform of §2/§4.2). -/
def configRegistry (cfg : List (String × Val)) (obj : Doc) : Doc :=
  match pyGet cfg "image-registry" with
  | some (Val.str r) => registryRewrite r obj
  | _ => obj

/-- Modelled from the spec: `update_tolerations` from the external manifest
library (imported by `disk_manifests.py`, not part of this repository)
rewrites the workload's pod-spec toleration list by applying the supplied
adjuster function to the current list ("Rewrite tolerations" in §4.2; the
adjuster receives and returns the whole list). -/
def update_tolerations (obj : Doc)
    (adjuster : List Toleration → List Toleration) : Doc :=
  { obj with tolerations := adjuster obj.tolerations }

namespace Disk

/-! ### `src/disk_manifests.py` -/

/-- `WriteSecret.REQUIRED` — same ten keys as the provider's
`UpdateSecret.REQUIRED`. -/
def writeSecretRequired : List String :=
  ["aad-client-id", "aad-client-secret", "resource-group", "location",
   "subnet-name", "security-group-name", "subscription-id", "tenant-id",
   "vnet-name", "vnet-resource-group"]

/-- `WriteSecret.OPTIONAL`. -/
def writeSecretOptional : List String :=
  ["load-balancer-sku", "primary-availability-set-name",
   "primary-scale-set-name", "route-table-name", "vm-type"]

/-- The same `any(s is self.manifests.config.get(s) ...)` guard as the
provider's `UpdateSecret`; see `Provider.secretGuard` for the identity
modelling. -/
def writeSecretGuard (cfg : List (String × Val)) : Bool :=
  writeSecretRequired.any (fun s => pyGet cfg s == some (Val.str s))

/-- The fixed `azure_json` defaults of `WriteSecret.__call__` (the float
literal is kept as literal text; the source never computes with it). -/
def writeSecretDefaults : List (String × Val) :=
  [("cloud", Val.str "AzurePublicCloud"),
   ("cloudProviderBackoff", Val.bool true),
   ("cloudProviderBackoffRetries", Val.int 6),
   ("cloudProviderBackoffExponent", Val.num "1.5"),
   ("cloudProviderBackoffDuration", Val.int 5),
   ("cloudProviderBackoffJitter", Val.int 1),
   ("cloudProviderRatelimit", Val.bool true),
   ("cloudProviderRateLimitQPS", Val.int 6),
   ("cloudProviderRateLimitBucket", Val.int 20),
   ("useManagedIdentityExtension", Val.bool false),
   ("userAssignedIdentityID", Val.str ""),
   ("useInstanceMetadata", Val.bool true),
   ("excludeMasterFromStandardLB", Val.bool false),
   ("maximumLoadBalancerRuleCount", Val.int 250),
   ("enableMultipleStandardLoadBalancers", Val.bool false),
   ("tags", Val.str "a=b,c=d")]

/-- The Secret document synthesised by the `WriteSecret` Addition, with the
`cloud-config` JSON object kept structured (the source base64-encodes its
`json.dumps`, an injective serialisation this model does not need to
replay). -/
structure DiskSecret where
  name : String
  nspace : String
  cloudConfig : List (String × Val)
  deriving DecidableEq, Repr

/-- `WriteSecret.__call__`: `None` when the (never-firing) guard trips,
otherwise the defaults merged with the camelized required entries, optional
keys dropped then re-merged when truthy. -/
def writeSecret (cfg : List (String × Val)) : Option DiskSecret :=
  if writeSecretGuard cfg then Option.none
  else
    some ⟨"azure-cloud-provider", "kube-system",
      Provider.secretPayload writeSecretRequired writeSecretOptional cfg
        writeSecretDefaults⟩

/-- `UpdateNode.__call__` (disk): after the kind/name match and the
node-selector type check the body performs no further mutation, so the
patch never alters its document. -/
def updateNode (cfg : List (String × Val)) (obj : Doc) : Option Doc :=
  if !(obj.kind == "DaemonSet" && obj.name == "csi-azuredisk-node") then
    some obj
  else
    match pyGet cfg "control-node-selector" with
    | some (Val.smap _) => some obj
    | _ => some obj

/-- `UpdateController._adjuster`: on the first toleration whose key contains
`"control-plane"`, return one toleration per configured selector entry
(operator `"Equal"`, effect and duration taken from that toleration);
return `[]` when no toleration matches.  `config.get("control-node-selector",
{})` is a dict whenever this runs (the caller checked it). -/
def adjuster (cfg : List (String × Val)) (tolerations : List Toleration) :
    List Toleration :=
  let nodeSelector :=
    match pyGet cfg "control-node-selector" with
    | some (Val.smap m) => m
    | _ => []
  match tolerations.find? (fun t => strContains t.key "control-plane") with
  | some t =>
    nodeSelector.map (fun kv =>
      Toleration.mk kv.1 (some kv.2) t.effect (some "Equal")
        t.tolerationSeconds)
  | Option.none => []

/-- `UpdateControllerDeployment.__call__` (disk): bail out unless the
configured `control-node-selector` is a dict; otherwise replace the node
selector, override replicas when a truthy configured count differs, rewrite
tolerations through `update_tolerations` with `_adjuster`, and install the
fixed topology-spread constraint. -/
def updateControllerDeployment (cfg : List (String × Val)) (obj : Doc) :
    Option Doc :=
  if !(obj.kind == "Deployment" && obj.name == "csi-azuredisk-controller") then
    some obj
  else
    match pyGet cfg "control-node-selector" with
    | some (Val.smap ns) =>
      let obj := { obj with nodeSelector := some ns }
      let obj :=
        match pyGet cfg "replicas" with
        | some (Val.int n) =>
          if n != 0 && obj.replicas != some n then
            { obj with replicas := some n }
          else obj
        | _ => obj
      let obj := update_tolerations obj (adjuster cfg)
      some { obj with
             topologySpreadConstraints :=
               [⟨1, "kubernetes.io/hostname", "DoNotSchedule",
                 obj.selectorMatchLabels⟩] }
    | _ => some obj

end Disk

/-! ### Transform pipelines (the ordered `manipulations` lists, Patch part)

Additions (`WriteSecret`, `CreateStorageClass`) synthesise fresh documents
and never touch existing ones, so the per-document pipeline is the ordered
composition of the Patch transforms. -/

/-- Per-document Patch pipeline of `AzureProviderManifests`:
`ManifestLabel`, `ConfigRegistry`, `UpdateSecret`, `UpdateControllerPod`,
`UpdateControllerDeployment`, `UpdateNode`. -/
def providerPipeline (appName : String) (cfg : List (String × Val))
    (obj : Doc) : Option Doc :=
  let obj := manifestLabel appName "cloud-provider-azure" obj
  let obj := configRegistry cfg obj
  (Provider.updateSecret cfg obj).bind (fun obj =>
    (Provider.updateControllerPod cfg obj).bind (fun obj =>
      (Provider.updateControllerDeployment cfg obj).bind (fun obj =>
        Provider.updateNode cfg obj)))

/-- Per-document Patch pipeline of `AzureDiskManifests`: `ManifestLabel`,
`ConfigRegistry`, `UpdateControllerDeployment`, `UpdateNode`. -/
def diskPipeline (appName : String) (cfg : List (String × Val))
    (obj : Doc) : Option Doc :=
  let obj := manifestLabel appName "disk-driver-azure" obj
  let obj := configRegistry cfg obj
  (Disk.updateControllerDeployment cfg obj).bind (fun obj =>
    Disk.updateNode cfg obj)

/-! ## Configuration assembly (`config` properties) -/

/-- The integrator relation's accessors as read by the two `config`
properties (`aad_client_id` is the provider spelling, `aad_client` the disk
spelling of the same credential accessor family). -/
structure IntegratorData where
  isReady : Bool
  tenantId : Val
  subscriptionId : Val
  aadClientId : Val
  aadClient : Val
  aadClientSecret : Val
  resourceGroup : Val
  resourceGroupLocation : Val
  subnetName : Val
  securityGroupName : Val
  vnetName : Val
  vnetResourceGroup : Val
  deriving DecidableEq, Repr

/-- The kube-control relation's accessors as read by the two `config`
properties.  `controllerTaints` is the `get_controller_taints()` result
(`None` and `[]` are equally falsy, so both are the empty list here);
`controllerLabels` is the result of the `{label.key: label.value for ...}`
comprehension. -/
structure KubeControlData where
  isReady : Bool
  registryLocation : Val
  clusterTag : Val
  controllerTaints : List Taint
  controllerLabels : List (String × String)
  appName : String
  unitCount : Nat
  deriving DecidableEq, Repr

/-- The default control-plane toleration
`Toleration("NoSchedule", "node-role.kubernetes.io/control-plane")`:
lightkube's `Toleration` dataclass lists its fields alphabetically, so the
positional arguments bind `effect="NoSchedule"` and
`key="node-role.kubernetes.io/control-plane"`. -/
def defaultControlPlaneTaint : Taint :=
  ⟨"node-role.kubernetes.io/control-plane", Option.none, some "NoSchedule"⟩

/-- Drop the entries the normalization loop deletes
(`if value == "" or value is None: del config[key]`). -/
def pruneEmpty (d : List (String × Val)) : List (String × Val) :=
  d.filter (fun kv => !(kv.2 == Val.str "" || kv.2 == Val.none))

/-- The final `config[canonical] = config.pop(sourceKey, None)` rename step
shared by both `config` properties. -/
def renameRelease (sourceKey : String) (d : List (String × Val)) :
    List (String × Val) :=
  let rel := (pyGet d sourceKey).getD Val.none
  pySet (pyPop d sourceKey) "release" rel

/-- `AzureProviderManifests.config` (lines 203-241). -/
def providerConfig (integ : IntegratorData) (kc : KubeControlData)
    (charmData : List (String × Val)) : List (String × Val) :=
  let config : List (String × Val) := []
  let config :=
    if integ.isReady then
      pyUpdate config
        [("tenant-id", integ.tenantId),
         ("subscription-id", integ.subscriptionId),
         ("aad-client-id", integ.aadClientId),
         ("aad-client-secret", integ.aadClientSecret),
         ("resource-group", integ.resourceGroup),
         ("location", integ.resourceGroupLocation),
         ("subnet-name", integ.subnetName),
         ("security-group-name", integ.securityGroupName),
         ("vnet-name", integ.vnetName),
         ("vnet-resource-group", integ.vnetResourceGroup)]
    else config
  let config :=
    if kc.isReady then
      let c := pySet config "image-registry" kc.registryLocation
      let c := pySet c "cluster-tag" kc.clusterTag
      let c := pySet c "control-node-taints"
        (Val.taints
          (if kc.controllerTaints.isEmpty then [defaultControlPlaneTaint]
           else kc.controllerTaints))
      let c := pySet c "control-node-selector"
        (Val.smap
          (if kc.controllerLabels.isEmpty then
            [("juju-application", kc.appName)]
           else kc.controllerLabels))
      pySet c "replicas" (Val.int kc.unitCount)
    else config
  let config := pyUpdate config charmData
  let config := pruneEmpty config
  renameRelease "provider-release" config

/-- `AzureDiskManifests.config` (lines 227-261): same shape, but the
kube-control block only contributes `image-registry`,
`control-node-selector` and `replicas`, the credential block reads
`aad_client`, and the release override key is `azuredisk-release`. -/
def diskConfig (integ : IntegratorData) (kc : KubeControlData)
    (charmData : List (String × Val)) : List (String × Val) :=
  let config : List (String × Val) := []
  let config :=
    if integ.isReady then
      pyUpdate config
        [("tenant-id", integ.tenantId),
         ("subscription-id", integ.subscriptionId),
         ("aad-client-id", integ.aadClient),
         ("aad-client-secret", integ.aadClientSecret),
         ("resource-group", integ.resourceGroup),
         ("location", integ.resourceGroupLocation),
         ("subnet-name", integ.subnetName),
         ("security-group-name", integ.securityGroupName),
         ("vnet-name", integ.vnetName),
         ("vnet-resource-group", integ.vnetResourceGroup)]
    else config
  let config :=
    if kc.isReady then
      let c := pySet config "image-registry" kc.registryLocation
      let c := pySet c "control-node-selector"
        (Val.smap
          (if kc.controllerLabels.isEmpty then
            [("juju-application", kc.appName)]
           else kc.controllerLabels))
      pySet c "replicas" (Val.int kc.unitCount)
    else config
  let config := pyUpdate config charmData
  let config := pruneEmpty config
  renameRelease "azuredisk-release" config

/-! ## `evaluate()` -/

/-- `AzureProviderManifests.evaluate` iterates
`UpdateSecret.REQUIRED | UpdateControllerDeployment.REQUIRED`; the union
adds `control-node-selector` to the ten credential keys (CPython set
iteration order is unspecified, so only the *set* of keys is significant;
the claims about `evaluate` are stated order-independently). -/
def providerProps : List String :=
  Provider.updateSecretRequired ++ ["control-node-selector"]

/-- The shared loop body of both `evaluate` methods: first key whose
configured value is falsy yields the waiting message. -/
def evaluateProps (props : List String) (msgOf : String → String)
    (cfg : List (String × Val)) : Option String :=
  props.findSome? (fun p =>
    if configTruthy cfg p then Option.none else some (msgOf p))

/-- `AzureProviderManifests.evaluate`. -/
def providerEvaluate (cfg : List (String × Val)) : Option String :=
  evaluateProps providerProps
    (fun p => "Provider manifests waiting for definition of " ++ p) cfg

/-- `WriteSecret.REQUIRED | UpdateControllerDeployment.REQUIRED |
UpdateNode.REQUIRED` of `disk_manifests.py`. -/
def diskProps : List String :=
  Disk.writeSecretRequired ++ ["control-node-selector"]

/-- `AzureDiskManifests.evaluate`. -/
def diskEvaluate (cfg : List (String × Val)) : Option String :=
  evaluateProps diskProps
    (fun p => "AzureDisk manifests waiting for definition of " ++ p) cfg

/-! ## The charm reconciliation cycle (`src/charm.py`) -/

/-- Unit statuses the reconciliation path can set. -/
inductive Status where
  | maintenance (msg : String)
  | blocked (msg : String)
  | waiting (msg : String)
  deriving DecidableEq, Repr

/-- The `StoredState` fields driven by the reconciliation cycle. -/
structure Stored where
  configHash : Option Nat
  deployed : Bool
  deriving DecidableEq, Repr

/-- Observable outcome of one `_merge_config` cycle: final stored state and
unit status, the number of `apply_manifests` calls issued, and whether the
triggering event was deferred. -/
structure CycleResult where
  stored : Stored
  status : Status
  applyCalls : Nat
  deferred : Bool
  deriving DecidableEq, Repr

/-- The `for controller in ...: try: controller.apply_manifests() except
ManifestClientError: ...` loop of `_install_or_upgrade`; each controller is
given by whether its apply raises.  Returns the number of apply calls made
and whether the loop completed. -/
def applyLoop : List Bool → Nat × Bool
  | [] => (0, true)
  | raises :: rest =>
    if raises then (1, false)
    else
      let (n, ok) := applyLoop rest
      (n + 1, ok)

/-- `AzureCloudProviderCharm._install_or_upgrade` (lines 222-237): skip
as a no-op when the stored hash equals the incoming one; otherwise set
Maintenance status and apply each controller's manifests, turning a
`ManifestClientError` into Waiting status plus `event.defer()`.  Returns
(status, apply calls, deferred, returned-True). -/
def installOrUpgrade (stored : Stored) (status : Status)
    (configHash : Option Nat) (applyRaises : List Bool) :
    Status × Nat × Bool × Bool :=
  if stored.configHash = configHash then (status, 0, false, true)
  else
    let (n, ok) := applyLoop applyRaises
    if ok then (Status.maintenance "Deploying Azure Cloud Provider", n, false, true)
    else (Status.waiting "Waiting for kube-apiserver", n, true, false)

/-- The evaluate-and-hash loop of `_merge_config` (lines 209-215): each
controller contributes its `evaluate()` result and its `hash()`; the first
non-null evaluation blocks, otherwise the hashes are summed. -/
def evalLoop : List (Option String × Nat) → Except String Nat
  | [] => Except.ok 0
  | (some reason, _) :: _ => Except.error reason
  | (Option.none, h) :: rest => (evalLoop rest).map (fun s => h + s)

/-- First failing pre-check among `_check_azure_relation`,
`_check_certificates`, `_check_kube_control`, `_check_config` (each given as
the status it leaves behind when it fails, `none` when it passes). -/
def firstFailure : List (Option Status) → Option Status
  | [] => Option.none
  | some st :: _ => some st
  | Option.none :: rest => firstFailure rest

/-- `AzureCloudProviderCharm._merge_config` (lines 195-220): run the
pre-checks, evaluate every controller (Blocked on the first reason),
compute the summed hash, clear `deployed`, run `_install_or_upgrade` with
the new hash, and only on success record the hash and set `deployed`. -/
def mergeConfig (stored : Stored) (checks : List (Option Status))
    (controllers : List (Option String × Nat)) (applyRaises : List Bool) :
    CycleResult :=
  match firstFailure checks with
  | some st => ⟨stored, st, 0, false⟩
  | Option.none =>
    match evalLoop controllers with
    | Except.error reason => ⟨stored, Status.blocked reason, 0, false⟩
    | Except.ok newHash =>
      let stored := { stored with deployed := false }
      let (st, n, defr, ok) :=
        installOrUpgrade stored (Status.maintenance "Evaluating Manifests")
          (some newHash) applyRaises
      if ok then
        ⟨{ stored with configHash := some newHash, deployed := true }, st, n, defr⟩
      else ⟨stored, st, n, defr⟩

/-! ## `hash()` — `int(md5(pickle.dumps(self.config)).hexdigest(), 16)`

The MD5 digest (RFC 1321) over byte lists, with 32-bit words as `Nat`
reduced mod `2^32`, and CPython's default (protocol-4) `pickle.dumps` of a
string-keyed, string-valued dict.  Both `AzureProviderManifests.hash` and
`AzureDiskManifests.hash` are this same composition applied to the
respective `config` snapshot. -/

namespace Md5

def mask32 : Nat := 4294967296

def rotl32 (x n : Nat) : Nat :=
  ((x <<< n) ||| (x >>> (32 - n))) % mask32

def not32 (x : Nat) : Nat := x ^^^ 4294967295

/-- Per-round constants `floor(2^32 * |sin(i+1)|)`. -/
def K : List Nat :=
  [3614090360, 3905402710, 606105819, 3250441966, 4118548399, 1200080426,
   2821735955, 4249261313, 1770035416, 2336552879, 4294925233, 2304563134,
   1804603682, 4254626195, 2792965006, 1236535329, 4129170786, 3225465664,
   643717713, 3921069994, 3593408605, 38016083, 3634488961, 3889429448,
   568446438, 3275163606, 4107603335, 1163531501, 2850285829, 4243563512,
   1735328473, 2368359562, 4294588738, 2272392833, 1839030562, 4259657740,
   2763975236, 1272893353, 4139469664, 3200236656, 681279174, 3936430074,
   3572445317, 76029189, 3654602809, 3873151461, 530742520, 3299628645,
   4096336452, 1126891415, 2878612391, 4237533241, 1700485571, 2399980690,
   4293915773, 2240044497, 1873313359, 4264355552, 2734768916, 1309151649,
   4149444226, 3174756917, 718787259, 3951481745]

/-- Per-round left-rotation amounts. -/
def S : List Nat :=
  [7, 12, 17, 22, 7, 12, 17, 22, 7, 12, 17, 22, 7, 12, 17, 22,
   5, 9, 14, 20, 5, 9, 14, 20, 5, 9, 14, 20, 5, 9, 14, 20,
   4, 11, 16, 23, 4, 11, 16, 23, 4, 11, 16, 23, 4, 11, 16, 23,
   6, 10, 15, 21, 6, 10, 15, 21, 6, 10, 15, 21, 6, 10, 15, 21]

/-- Nonlinear function and message-word index for round `i`. -/
def roundMix (i b c d : Nat) : Nat × Nat :=
  if i < 16 then ((b &&& c) ||| (not32 b &&& d), i)
  else if i < 32 then ((d &&& b) ||| (not32 d &&& c), (5 * i + 1) % 16)
  else if i < 48 then (b ^^^ c ^^^ d, (3 * i + 5) % 16)
  else (c ^^^ (b ||| not32 d), (7 * i) % 16)

/-- One of the 64 MD5 operations on state `(a, b, c, d)` with message
words `m`. -/
def md5Op (m : List Nat) (st : Nat × Nat × Nat × Nat) (i : Nat) :
    Nat × Nat × Nat × Nat :=
  let (a, b, c, d) := st
  let (f, g) := roundMix i b c d
  let rotated :=
    rotl32 ((a + f + (K.getD i 0) + (m.getD g 0)) % mask32) (S.getD i 0)
  (d, (b + rotated) % mask32, b, c)

/-- Little-endian bytes of `n`, `width` bytes wide. -/
def leBytes (width n : Nat) : List Nat :=
  (List.range width).map (fun i => (n >>> (8 * i)) % 256)

/-- Fuel-driven chunking (structural recursion so the kernel can evaluate
it; `fuel ≥ length` suffices). -/
def chunksAux (size : Nat) : Nat → List Nat → List (List Nat)
  | _, [] => []
  | 0, _ => []
  | fuel + 1, l => l.take size :: chunksAux size fuel (l.drop size)

def chunks (size : Nat) (l : List Nat) : List (List Nat) :=
  chunksAux size (l.length + 1) l

/-- Assemble four little-endian bytes into a 32-bit word. -/
def wordOfBytes (bs : List Nat) : Nat :=
  bs.getD 0 0 + 256 * bs.getD 1 0 + 65536 * bs.getD 2 0 +
    16777216 * bs.getD 3 0

/-- MD5 padding: `0x80`, zeros to 56 mod 64, then the 64-bit little-endian
bit length. -/
def pad (msg : List Nat) : List Nat :=
  let len := msg.length
  let zeros := (56 + 64 - ((len + 1) % 64)) % 64
  msg ++ [128] ++ List.replicate zeros 0 ++ leBytes 8 (len * 8)

def processBlock (st : Nat × Nat × Nat × Nat) (block : List Nat) :
    Nat × Nat × Nat × Nat :=
  let m := (chunks 4 block).map wordOfBytes
  let (a, b, c, d) := (List.range 64).foldl (md5Op m) st
  let (a0, b0, c0, d0) := st
  ((a0 + a) % mask32, (b0 + b) % mask32, (c0 + c) % mask32,
   (d0 + d) % mask32)

/-- The 16 digest bytes of `md5(msg)`. -/
def digestBytes (msg : List Nat) : List Nat :=
  let st := (chunks 64 (pad msg)).foldl processBlock
    (1732584193, 4023233417, 2562383102, 271733878)
  let (a, b, c, d) := st
  leBytes 4 a ++ leBytes 4 b ++ leBytes 4 c ++ leBytes 4 d

/-- `int(md5(msg).hexdigest(), 16)`: the hex digest read as a base-16
integer is the digest bytes interpreted big-endian. -/
def digestNat (msg : List Nat) : Nat :=
  (digestBytes msg).foldl (fun acc b => acc * 256 + b) 0

end Md5

set_option maxRecDepth 100000

/-- RFC 1321 test vectors (`md5("")` and `md5("abc")`). -/
example :
    Md5.digestNat [] = 0xd41d8cd98f00b204e9800998ecf8427e ∧
    Md5.digestNat [97, 98, 99] = 0x900150983cd24fb0d6963f7d28e17f72 := by
  constructor <;> rfl

namespace Pickle

/-- ASCII code points of a string (the configuration keys and values fed to
`pickle` here are ASCII, where UTF-8 coincides with the code points). -/
def asciiBytes (s : String) : List Nat :=
  s.data.map Char.toNat

/-- A short string pickled under protocol 4: `SHORT_BINUNICODE` (`0x8c`),
one length byte, the UTF-8 bytes, then `MEMOIZE` (`0x94`).  Valid for
strings shorter than 256 bytes that have not been memoized before (the
snapshots considered here use pairwise-distinct strings, so no memo hits
occur). -/
def strBytes (s : String) : List Nat :=
  [140, (asciiBytes s).length] ++ asciiBytes s ++ [148]

/-- The item-batching of `pickle._Pickler._batch_setitems`: nothing for an
empty dict, `k v SETITEM` (`0x73`) for one item, `MARK (0x28) k1 v1 ...
SETITEMS (0x75)` otherwise (the 1000-item batch limit is far beyond these
snapshots). -/
def itemBytes (entries : List (String × String)) : List Nat :=
  match entries with
  | [] => []
  | [(k, v)] => strBytes k ++ strBytes v ++ [115]
  | _ => [40] ++ (entries.map (fun kv => strBytes kv.1 ++ strBytes kv.2)).flatten ++ [117]

/-- `pickle.dumps(d)` for a `str → str` dict under CPython's default
protocol 4: `PROTO 4` (`0x80 0x04`), a `FRAME` opcode (`0x95`) with the
8-byte little-endian length of everything that follows (emitted for frames
of at least 4 bytes, which any nonempty dict produces), `EMPTY_DICT`
(`0x7d`) + `MEMOIZE`, the batched items, and `STOP` (`0x2e`).  Dict items
are emitted in insertion order. -/
def dumps (entries : List (String × String)) : List Nat :=
  let rest := [125, 148] ++ itemBytes entries ++ [46]
  if rest.length < 4 then [128, 4] ++ rest
  else [128, 4, 149] ++ Md5.leBytes 8 rest.length ++ rest

end Pickle

/-- `AzureProviderManifests.hash` / `AzureDiskManifests.hash`
(`int(md5(pickle.dumps(self.config)).hexdigest(), 16)`), for snapshots
whose values are strings (the only case the hash claims need; pickling of
other value types is not modelled). -/
def configHash (snapshot : List (String × String)) : Nat :=
  Md5.digestNat (Pickle.dumps snapshot)

/-- Byte-level validation of the pickle model against CPython 3.11:
`pickle.dumps({"aa": "bb", "cc": "dd"})`. -/
example :
    Pickle.dumps [("aa", "bb"), ("cc", "dd")] =
      [128, 4, 149, 25, 0, 0, 0, 0, 0, 0, 0, 125, 148, 40, 140, 2, 97, 97,
       148, 140, 2, 98, 98, 148, 140, 2, 99, 99, 148, 140, 2, 100, 100, 148,
       117, 46] := by
  rfl

/-- End-to-end validation against CPython:
`int(md5(pickle.dumps({"aa": "bb", "cc": "dd"})).hexdigest(), 16)` and the
same snapshot inserted in the opposite order. -/
example :
    configHash [("aa", "bb"), ("cc", "dd")] =
      327192045059566100183973940303156580135 ∧
    configHash [("cc", "dd"), ("aa", "bb")] =
      196346763572348198847133801338003155569 := by
  constructor <;> rfl

/-! ## Lemmas about the dict primitives -/

section DictLemmas

variable {V : Type}

theorem pyGet_pySet_self (d : List (String × V)) (k : String) (v : V) :
    pyGet (pySet d k v) k = some v := by
  induction d with
  | nil => simp [pyGet, pySet]
  | cons kv rest ih =>
    obtain ⟨k', v'⟩ := kv
    by_cases h : k' = k <;> simp [pyGet, pySet, h, ih]

theorem pyGet_pySet_ne (d : List (String × V)) {k k' : String} (v : V)
    (h : k' ≠ k) : pyGet (pySet d k v) k' = pyGet d k' := by
  have h' : ¬k = k' := fun he => h he.symm
  induction d with
  | nil => simp [pyGet, pySet, h']
  | cons kv rest ih =>
    obtain ⟨k₀, v₀⟩ := kv
    by_cases h₀ : k₀ = k
    · subst h₀
      simp [pyGet, pySet, h']
    · simp only [pySet, if_neg h₀, pyGet]
      by_cases h₁ : k₀ = k' <;> simp [h₁, ih]

theorem pySet_eq_self_of_pyGet (d : List (String × V)) {k : String} {v : V}
    (h : pyGet d k = some v) : pySet d k v = d := by
  induction d with
  | nil => simp [pyGet] at h
  | cons kv rest ih =>
    obtain ⟨k₀, v₀⟩ := kv
    by_cases h₀ : k₀ = k
    · subst h₀
      simp only [pyGet, if_pos rfl] at h
      obtain rfl : v₀ = v := by injection h
      simp [pySet]
    · simp only [pyGet, if_neg h₀] at h
      simp [pySet, h₀, ih h]

theorem pyGet_pyPop_self (d : List (String × V)) (k : String) :
    pyGet (pyPop d k) k = Option.none := by
  induction d with
  | nil => simp [pyGet, pyPop]
  | cons kv rest ih =>
    obtain ⟨k₀, v₀⟩ := kv
    by_cases h₀ : k₀ = k <;> simp [pyGet, pyPop, h₀, ih]

theorem pyGet_pyPop_ne (d : List (String × V)) {k k' : String}
    (h : k' ≠ k) : pyGet (pyPop d k) k' = pyGet d k' := by
  induction d with
  | nil => simp [pyGet, pyPop]
  | cons kv rest ih =>
    obtain ⟨k₀, v₀⟩ := kv
    by_cases h₀ : k₀ = k
    · subst h₀
      have : ¬k₀ = k' := fun he => h he.symm
      simp [pyGet, pyPop, this, ih]
    · by_cases h₁ : k₀ = k' <;> simp [pyGet, pyPop, h, h₀, h₁, ih]

theorem pyPop_eq_self_of_none (d : List (String × V)) {k : String}
    (h : pyGet d k = Option.none) : pyPop d k = d := by
  induction d with
  | nil => simp [pyPop]
  | cons kv rest ih =>
    obtain ⟨k₀, v₀⟩ := kv
    by_cases h₀ : k₀ = k
    · simp [pyGet, h₀] at h
    · simp only [pyGet, if_neg h₀] at h
      simp [pyPop, h₀, ih h]

theorem pyGet_eq_none_of_not_mem (d : List (String × V)) {k : String}
    (h : k ∉ d.map Prod.fst) : pyGet d k = Option.none := by
  induction d with
  | nil => simp [pyGet]
  | cons kv rest ih =>
    simp only [List.map_cons, List.mem_cons, not_or] at h
    have : ¬kv.1 = k := fun he => h.1 he.symm
    obtain ⟨k₀, v₀⟩ := kv
    simp only [pyGet, if_neg this]
    exact ih h.2

theorem mem_of_pyGet_eq_some {d : List (String × V)} {k : String} {v : V}
    (h : pyGet d k = some v) : (k, v) ∈ d := by
  induction d with
  | nil => simp [pyGet] at h
  | cons kv rest ih =>
    obtain ⟨k₀, v₀⟩ := kv
    by_cases h₀ : k₀ = k
    · subst h₀
      simp only [pyGet, if_pos rfl] at h
      obtain rfl : v₀ = v := by injection h
      simp
    · simp only [pyGet, if_neg h₀] at h
      exact List.mem_cons_of_mem _ (ih h)

theorem pyGet_eq_some_of_mem_nodup {d : List (String × V)} {k : String}
    {v : V} (hmem : (k, v) ∈ d) (hnd : (d.map Prod.fst).Nodup) :
    pyGet d k = some v := by
  induction d with
  | nil => simp at hmem
  | cons kv rest ih =>
    obtain ⟨k₀, v₀⟩ := kv
    simp only [List.map_cons, List.nodup_cons] at hnd
    rcases List.mem_cons.mp hmem with h | h
    · simp only [Prod.mk.injEq] at h
      obtain ⟨rfl, rfl⟩ := h
      simp [pyGet]
    · have hne : k₀ ≠ k := by
        rintro rfl
        exact hnd.1 (List.mem_map.mpr ⟨(k₀, v), h, rfl⟩)
      simp only [pyGet, if_neg hne]
      exact ih h hnd.2

theorem pyGet_append (d e : List (String × V)) (k : String) :
    pyGet (d ++ e) k =
      match pyGet d k with
      | some v => some v
      | Option.none => pyGet e k := by
  induction d with
  | nil => simp [pyGet]
  | cons kv rest ih =>
    obtain ⟨k₀, v₀⟩ := kv
    by_cases h₀ : k₀ = k <;> simp [pyGet, h₀, ih]

theorem pyGet_pyUpdate_not_mem (d : List (String × V))
    (kvs : List (String × V)) {k : String} (h : k ∉ kvs.map Prod.fst) :
    pyGet (pyUpdate d kvs) k = pyGet d k := by
  induction kvs generalizing d with
  | nil => simp [pyUpdate]
  | cons kv rest ih =>
    simp only [List.map_cons, List.mem_cons, not_or] at h
    show pyGet (pyUpdate (pySet d kv.1 kv.2) rest) k = pyGet d k
    rw [ih _ h.2, pyGet_pySet_ne _ _ h.1]

theorem pyUpdate_eq_self (d : List (String × V)) (kvs : List (String × V))
    (h : ∀ kv ∈ kvs, pyGet d kv.1 = some kv.2) : pyUpdate d kvs = d := by
  induction kvs with
  | nil => simp [pyUpdate]
  | cons kv rest ih =>
    show pyUpdate (pySet d kv.1 kv.2) rest = d
    rw [pySet_eq_self_of_pyGet d (h kv (List.mem_cons_self kv rest))]
    exact ih (fun kv' h' => h kv' (List.mem_cons_of_mem kv h'))

theorem pyGet_pyUpdate_mem (d : List (String × V)) {kvs : List (String × V)}
    {k : String} {v : V} (hmem : (k, v) ∈ kvs)
    (hnd : (kvs.map Prod.fst).Nodup) : pyGet (pyUpdate d kvs) k = some v := by
  induction kvs generalizing d with
  | nil => simp at hmem
  | cons kv rest ih =>
    simp only [List.map_cons, List.nodup_cons] at hnd
    rcases List.mem_cons.mp hmem with h | h
    · subst h
      show pyGet (pyUpdate (pySet d k v) rest) k = some v
      rw [pyGet_pyUpdate_not_mem _ _ hnd.1, pyGet_pySet_self]
    · exact ih _ h hnd.2

theorem pySet_eq_append_of_none (d : List (String × V)) {k : String}
    (v : V) (h : pyGet d k = Option.none) : pySet d k v = d ++ [(k, v)] := by
  induction d with
  | nil => simp [pySet]
  | cons kv₀ rest₀ ih₀ =>
    obtain ⟨k₀, v₀⟩ := kv₀
    by_cases h₀ : k₀ = k
    · simp [pyGet, h₀] at h
    · simp only [pyGet, if_neg h₀] at h
      simp [pySet, h₀, ih₀ h]

theorem pyUpdate_eq_append (d : List (String × V)) (kvs : List (String × V))
    (h : ∀ kv ∈ kvs, pyGet d kv.1 = Option.none)
    (hnd : (kvs.map Prod.fst).Nodup) : pyUpdate d kvs = d ++ kvs := by
  induction kvs generalizing d with
  | nil => simp [pyUpdate]
  | cons kv rest ih =>
    simp only [List.map_cons, List.nodup_cons] at hnd
    show pyUpdate (pySet d kv.1 kv.2) rest = d ++ kv :: rest
    rw [pySet_eq_append_of_none d kv.2 (h kv (List.mem_cons_self kv rest)),
      ih (d ++ [kv]) ?_ hnd.2, List.append_assoc]
    · simp
    · intro kv' h'
      have hne : kv.1 ≠ kv'.1 := by
        intro he
        exact hnd.1 (List.mem_map.mpr ⟨kv', h', he.symm⟩)
      rw [pyGet_append, h kv' (List.mem_cons_of_mem kv h')]
      simp [pyGet, hne]

theorem pyPop_eq_filter (d : List (String × V)) (k : String) :
    pyPop d k = d.filter (fun kv => kv.1 != k) := by
  induction d with
  | nil => rfl
  | cons kv rest ih =>
    obtain ⟨k₀, v₀⟩ := kv
    by_cases h₀ : k₀ = k <;> simp [pyPop, List.filter_cons, h₀, ih]

theorem pyPopAll_eq_filter (d : List (String × V)) (ks : List String) :
    pyPopAll d ks = d.filter (fun kv => !ks.contains kv.1) := by
  induction ks generalizing d with
  | nil => simp [pyPopAll]
  | cons k₀ ks ih =>
    show pyPopAll (pyPop d k₀) ks = _
    rw [ih, pyPop_eq_filter, List.filter_filter]
    congr 1
    funext kv
    by_cases h : kv.1 = k₀ <;> simp [h]

theorem pyGet_pyPopAll (d : List (String × V)) (ks : List String)
    (k : String) :
    pyGet (pyPopAll d ks) k =
      if k ∈ ks then Option.none else pyGet d k := by
  induction ks generalizing d with
  | nil => simp [pyPopAll]
  | cons k₀ ks ih =>
    show pyGet (pyPopAll (pyPop d k₀) ks) k = _
    rw [ih]
    by_cases h₀ : k = k₀
    · subst h₀
      by_cases h₁ : k ∈ ks
      · simp [h₁]
      · simp [h₁, pyGet_pyPop_self]
    · by_cases h₁ : k ∈ ks
      · simp [h₁, h₀]
      · simp only [List.mem_cons, h₀, h₁, or_self, if_neg, if_false]
        exact pyGet_pyPop_ne d h₀

theorem pyPopAll_eq_self (d : List (String × V)) (ks : List String)
    (h : ∀ kv ∈ d, kv.1 ∉ ks) : pyPopAll d ks = d := by
  rw [pyPopAll_eq_filter]
  exact List.filter_eq_self.mpr (fun kv hm => by simp [h kv hm])

theorem pyPopAll_eq_nil (d : List (String × V)) (ks : List String)
    (h : ∀ kv ∈ d, kv.1 ∈ ks) : pyPopAll d ks = [] := by
  rw [pyPopAll_eq_filter]
  exact List.filter_eq_nil_iff.mpr (fun kv hm => by simp [h kv hm])

theorem pyPopAll_append (d e : List (String × V)) (ks : List String) :
    pyPopAll (d ++ e) ks = pyPopAll d ks ++ pyPopAll e ks := by
  simp [pyPopAll_eq_filter, List.filter_append]

end DictLemmas

/-! ## Lemmas about the shared secret-payload rewrite -/

section PayloadLemmas

/-- Entries surviving the optional filter are truthy optional entries of the
configuration. -/
theorem mem_optional_filter {cfg : List (String × Val)}
    {optional : List String} {kv : String × Val}
    (h : kv ∈ cfg.filter (fun kv => optional.contains kv.1 && truthy kv.2)) :
    kv ∈ cfg ∧ optional.contains kv.1 ∧ truthy kv.2 := by
  have := List.mem_filter.mp h
  exact ⟨this.1, by simpa using this.2⟩

/-- After the payload rewrite, the camelized form of an optional key that is
absent or falsy in the configuration does not occur in the payload
(`azure_json.pop` removed it and only truthy optional entries are merged
back). -/
theorem pyGet_secretPayload_optional_absent
    (required optional : List String) (cfg base : List (String × Val))
    {o : String} (ho : o ∈ optional)
    (hinj : ∀ a ∈ optional, ∀ b ∈ optional, camelize a = camelize b → a = b)
    (hnd : (cfg.map Prod.fst).Nodup)
    (hfalsy : configTruthy cfg o = false) :
    pyGet (Provider.secretPayload required optional cfg base) (camelize o) =
      Option.none := by
  unfold Provider.secretPayload
  rw [pyGet_pyUpdate_not_mem, pyGet_pyPopAll]
  · rw [if_pos (List.mem_map.mpr ⟨o, ho, rfl⟩)]
  · intro hmem
    simp only [List.map_map, List.mem_map, Function.comp] at hmem
    obtain ⟨kv, hkv, heq⟩ := hmem
    obtain ⟨hcfg, hopt, htr⟩ := mem_optional_filter hkv
    have hko : kv.1 = o :=
      hinj kv.1 (by simpa using hopt) o ho heq
    have hmem' : ((o, kv.2) : String × Val) ∈ cfg := by
      rw [← hko]
      exact hcfg
    have hgo : pyGet cfg o = some kv.2 :=
      pyGet_eq_some_of_mem_nodup hmem' hnd
    rw [configTruthy, hgo] at hfalsy
    simp only [htr] at hfalsy
    exact absurd hfalsy (by simp)

/-- After the payload rewrite, an optional key present and truthy in the
configuration occurs camelized in the payload with its configured value. -/
theorem pyGet_secretPayload_optional_present
    (required optional : List String) (cfg base : List (String × Val))
    {o : String} {v : Val} (ho : o ∈ optional)
    (hinj : ∀ a ∈ optional, ∀ b ∈ optional, camelize a = camelize b → a = b)
    (hnd : (cfg.map Prod.fst).Nodup)
    (hget : pyGet cfg o = some v) (htruthy : truthy v = true) :
    pyGet (Provider.secretPayload required optional cfg base) (camelize o) =
      some v := by
  unfold Provider.secretPayload
  have hmem : ((camelize o, v) : String × Val) ∈
      (cfg.filter (fun kv => optional.contains kv.1 && truthy kv.2)).map
        (fun kv => (camelize kv.1, kv.2)) := by
    refine List.mem_map.mpr ⟨(o, v), ?_, rfl⟩
    refine List.mem_filter.mpr ⟨mem_of_pyGet_eq_some hget, ?_⟩
    simp [ho, htruthy]
  refine pyGet_pyUpdate_mem _ hmem ?_
  have hsub : ((cfg.filter
      (fun kv => optional.contains kv.1 && truthy kv.2)).map Prod.fst).Sublist
      (cfg.map Prod.fst) :=
    (List.filter_sublist cfg).map Prod.fst
  have hndf := hnd.sublist hsub
  have hkeys : ∀ a ∈ (cfg.filter
      (fun kv => optional.contains kv.1 && truthy kv.2)).map Prod.fst,
      a ∈ optional := by
    intro a ha
    obtain ⟨kv, hkv, rfl⟩ := List.mem_map.mp ha
    simpa using (mem_optional_filter hkv).2.1
  have : (((cfg.filter
      (fun kv => optional.contains kv.1 && truthy kv.2)).map
        Prod.fst).map camelize).Nodup :=
    hndf.map_on (fun a ha b hb heq => hinj a (hkeys a ha) b (hkeys b hb) heq)
  simpa [List.map_map, Function.comp] using this

/-- One full payload pass `update required / pop optionals / update truthy
optionals` is idempotent at the list level: the required keys avoid the
popped key set, the optional keys live inside it, and both batches have
distinct keys. -/
theorem update_popAll_update_idem {V : Type}
    (base R O : List (String × V)) (camOpts : List String)
    (hRnd : (R.map Prod.fst).Nodup) (hOnd : (O.map Prod.fst).Nodup)
    (hRopt : ∀ kv ∈ R, kv.1 ∉ camOpts)
    (hOopt : ∀ kv ∈ O, kv.1 ∈ camOpts) :
    pyUpdate (pyPopAll
        (pyUpdate (pyUpdate (pyPopAll (pyUpdate base R) camOpts) O) R)
        camOpts) O =
      pyUpdate (pyPopAll (pyUpdate base R) camOpts) O := by
  set j1 := pyUpdate base R with hj1
  set j2 := pyPopAll j1 camOpts with hj2
  set p1 := pyUpdate j2 O with hp1
  have hOfresh : ∀ kv ∈ O, pyGet j2 kv.1 = Option.none := by
    intro kv hkv
    rw [hj2, pyGet_pyPopAll, if_pos (hOopt kv hkv)]
  have hp1app : p1 = j2 ++ O := pyUpdate_eq_append _ _ hOfresh hOnd
  have hstepA : pyUpdate p1 R = p1 := by
    apply pyUpdate_eq_self
    intro kv hkv
    have h1 : kv.1 ∉ O.map Prod.fst := by
      intro hmem
      obtain ⟨kv', hkv', heq⟩ := List.mem_map.mp hmem
      exact hRopt kv hkv (heq ▸ hOopt kv' hkv')
    rw [hp1, pyGet_pyUpdate_not_mem _ _ h1, hj2, pyGet_pyPopAll,
      if_neg (hRopt kv hkv), hj1]
    exact pyGet_pyUpdate_mem _ hkv hRnd
  have hstepB : pyPopAll p1 camOpts = j2 := by
    rw [hp1app, pyPopAll_append, pyPopAll_eq_self j2 camOpts ?_,
      pyPopAll_eq_nil O camOpts hOopt, List.append_nil]
    intro kv hkv
    rw [hj2, pyPopAll_eq_filter] at hkv
    simpa using (List.mem_filter.mp hkv).2
  rw [hstepA, hstepB]

/-- Distinctness of the camelized keys of a filtered batch whose keys all
come from `keys`, given camelize is injective on `keys`. -/
theorem nodup_camelized_filter (cfg : List (String × Val))
    (keys : List String) (p : String × Val → Bool)
    (hnd : (cfg.map Prod.fst).Nodup)
    (hin : ∀ kv ∈ cfg.filter p, kv.1 ∈ keys)
    (hinj : ∀ a ∈ keys, ∀ b ∈ keys, camelize a = camelize b → a = b) :
    (((cfg.filter p).map (fun kv => (camelize kv.1, kv.2))).map
      Prod.fst).Nodup := by
  have hndf : ((cfg.filter p).map Prod.fst).Nodup :=
    hnd.sublist ((List.filter_sublist cfg).map Prod.fst)
  have hkeys : ∀ a ∈ (cfg.filter p).map Prod.fst, a ∈ keys := by
    intro a ha
    obtain ⟨kv, hkv, rfl⟩ := List.mem_map.mp ha
    exact hin kv hkv
  have : (((cfg.filter p).map Prod.fst).map camelize).Nodup :=
    hndf.map_on (fun a ha b hb heq => hinj a (hkeys a ha) b (hkeys b hb) heq)
  simpa [List.map_map, Function.comp] using this

/-- Idempotence of the full secret-payload rewrite, under camelize
injectivity on the two (concrete, finite) key sets and their camelized
disjointness. -/
theorem secretPayload_idem (required optional : List String)
    (cfg base : List (String × Val))
    (hnd : (cfg.map Prod.fst).Nodup)
    (hinjR : ∀ a ∈ required, ∀ b ∈ required, camelize a = camelize b → a = b)
    (hinjO : ∀ a ∈ optional, ∀ b ∈ optional, camelize a = camelize b → a = b)
    (hdisj : ∀ a ∈ required, ∀ b ∈ optional, camelize a ≠ camelize b) :
    Provider.secretPayload required optional cfg
        (Provider.secretPayload required optional cfg base) =
      Provider.secretPayload required optional cfg base := by
  unfold Provider.secretPayload
  apply update_popAll_update_idem
  · exact nodup_camelized_filter cfg required _ hnd
      (fun kv hkv => by simpa using (List.mem_filter.mp hkv).2) hinjR
  · exact nodup_camelized_filter cfg optional _ hnd
      (fun kv hkv => by simpa using (mem_optional_filter hkv).2.1) hinjO
  · intro kv hkv hmem
    obtain ⟨kv', hkv', heq⟩ := List.mem_map.mp hkv
    obtain ⟨o, ho, heqo⟩ := List.mem_map.mp hmem
    have ha : kv'.1 ∈ required := by
      simpa using (List.mem_filter.mp hkv').2
    exact hdisj kv'.1 ha o ho (by rw [← heq] at heqo; exact heqo.symm)
  · intro kv hkv
    obtain ⟨kv', hkv', heq⟩ := List.mem_map.mp hkv
    have ho : kv'.1 ∈ optional := by
      simpa using (mem_optional_filter hkv').2.1
    exact List.mem_map.mpr ⟨kv'.1, ho, by rw [← heq]⟩

end PayloadLemmas

/-! ## Claim C1 — `hash()` and mapping insertion order -/

/-- Association lists with equal keys in equal order and equal lookups are
equal (keys distinct). -/
theorem assocExt {V : Type} (c₁ c₂ : List (String × V))
    (hk : c₁.map Prod.fst = c₂.map Prod.fst)
    (hnd : (c₁.map Prod.fst).Nodup)
    (hget : ∀ k, pyGet c₁ k = pyGet c₂ k) : c₁ = c₂ := by
  induction c₁ generalizing c₂ with
  | nil =>
    cases c₂ with
    | nil => rfl
    | cons kv t => simp at hk
  | cons kv t₁ ih =>
    obtain ⟨k, v⟩ := kv
    cases c₂ with
    | nil => simp at hk
    | cons kv₂ t₂ =>
      obtain ⟨k₂, v₂⟩ := kv₂
      simp only [List.map_cons, List.cons.injEq] at hk
      obtain ⟨rfl, hktail⟩ := hk
      simp only [List.map_cons, List.nodup_cons] at hnd
      have hv : v = v₂ := by
        have := hget k
        simp only [pyGet, if_pos rfl] at this
        injection this
      subst hv
      have htail : t₁ = t₂ := by
        refine ih t₂ hktail hnd.2 ?_
        intro k'
        by_cases hk' : k = k'
        · subst hk'
          rw [pyGet_eq_none_of_not_mem t₁ hnd.1,
            pyGet_eq_none_of_not_mem t₂ (hktail ▸ hnd.1)]
        · have := hget k'
          simpa only [pyGet, if_neg hk'] using this
      rw [htail]

/-- C1: REFUTED as stated.  Two snapshots holding exactly the same
key/value pairs (a permutation of one another, keys distinct and values
non-empty) hash differently when their insertion orders differ:
`pickle.dumps` serialises dict items in insertion order, so the md5
fingerprint is *not* independent of mapping iteration order. -/
theorem hash_insertion_order_counterexample :
    ([("aa", "bb"), ("cc", "dd")] : List (String × String)).Perm
        [("cc", "dd"), ("aa", "bb")] ∧
      configHash [("aa", "bb"), ("cc", "dd")] ≠
        configHash [("cc", "dd"), ("aa", "bb")] := by
  constructor
  · decide
  · decide

/-- C1 (amended): the fingerprint is deterministic over the *ordered*
normalized snapshot — two snapshots with equal key/value content inserted
in the same order hash identically; equal content in a different insertion
order may hash differently (see the counterexample). -/
theorem hash_deterministic_in_ordered_content
    (c₁ c₂ : List (String × String))
    (hk : c₁.map Prod.fst = c₂.map Prod.fst)
    (hnd : (c₁.map Prod.fst).Nodup)
    (hget : ∀ k, pyGet c₁ k = pyGet c₂ k) :
    configHash c₁ = configHash c₂ := by
  rw [assocExt c₁ c₂ hk hnd hget]

/-- C1 amended-claim witness at a concrete snapshot. -/
theorem hash_deterministic_in_ordered_content_witness :
    configHash [("release", "v1.28.1")] = configHash [("release", "v1.28.1")] :=
  hash_deterministic_in_ordered_content _ _ rfl (by decide) (fun _ => rfl)

/-! ## Claim C2 — the broken missing-credential guard -/

/-- A provider-style snapshot in which exactly one required credential
(`tenant-id`) is present and the other nine are absent. -/
def partialCredsConfig : List (String × Val) := [("tenant-id", Val.str "tid")]

/-- The Secret document of the provider manifests with an empty default
`azure.json` payload. -/
def providerSecretDoc : Doc :=
  ⟨"Secret", "azure-cloud-config", [], Option.none, [], Option.none, [], [],
    [], [("azure.json", [])]⟩

/-- C2: the code contradicts the claim (and its own
`log.error("secret data item is None")` intent): with nine required fields
absent, the guard `any(s is self.manifests.config.get(s) ...)` — which
compares the *key string* against the looked-up value and is `False` both
for absent keys (`s is None`) and for ordinary values — does not fire, so
`UpdateSecret.__call__` rewrites the Secret's `stringData` with the partial
credential set and `WriteSecret.__call__` emits a Secret document instead
of returning `None`. -/
theorem secret_guard_never_fires :
    pyGet partialCredsConfig "aad-client-id" = Option.none ∧
    Provider.updateSecret partialCredsConfig providerSecretDoc ≠
      some providerSecretDoc ∧
    Provider.updateSecret partialCredsConfig providerSecretDoc =
      some { providerSecretDoc with
             stringData := [("azure.json", [("tenantId", Val.str "tid")])] } ∧
    Disk.writeSecret partialCredsConfig ≠ Option.none := by
  exact ⟨rfl, by decide, rfl, by decide⟩

/-! ## Claim C7 — normalization and the `release` rename -/

/-- What `renameRelease srcKey (pruneEmpty d)` guarantees: every surviving
key other than `release` has a value that is neither the empty string nor
`None`; the source key is gone; and `release` is always present (its value
is the popped override, `None` when absent). -/
theorem renameRelease_pruneEmpty_spec (srcKey : String)
    (d : List (String × Val)) (hsrc : srcKey ≠ "release") :
    (∀ k v, k ≠ "release" →
      pyGet (renameRelease srcKey (pruneEmpty d)) k = some v →
      v ≠ Val.str "" ∧ v ≠ Val.none) ∧
    pyGet (renameRelease srcKey (pruneEmpty d)) srcKey = Option.none ∧
    (pyGet (renameRelease srcKey (pruneEmpty d)) "release").isSome = true := by
  refine ⟨?_, ?_, ?_⟩
  · intro k v hk hget
    rw [renameRelease, pyGet_pySet_ne _ _ hk] at hget
    by_cases hks : k = srcKey
    · subst hks
      rw [pyGet_pyPop_self] at hget
      exact absurd hget (by simp)
    · rw [pyGet_pyPop_ne _ hks] at hget
      have hmem := mem_of_pyGet_eq_some hget
      have := (List.mem_filter.mp hmem).2
      constructor
      · intro he
        subst he
        simp at this
      · intro he
        subst he
        simp at this
  · rw [renameRelease, pyGet_pySet_ne _ _ hsrc, pyGet_pyPop_self]
  · rw [renameRelease, pyGet_pySet_self]
    rfl

/-- C7: REFUTED as stated at a concrete input — with no relations ready and
an empty charm configuration, both snapshots still contain the key
`release` mapped to `None`, because `config["release"] =
config.pop(..., None)` runs *after* the empty-value purge; so it is not
true that no key of the returned snapshot maps to an empty or `None`
value. -/
theorem release_none_counterexample :
    providerConfig ⟨false, Val.none, Val.none, Val.none, Val.none, Val.none,
        Val.none, Val.none, Val.none, Val.none, Val.none, Val.none⟩
      ⟨false, Val.none, Val.none, [], [], "", 0⟩ [] =
      [("release", Val.none)] ∧
    pyGet (diskConfig ⟨false, Val.none, Val.none, Val.none, Val.none,
        Val.none, Val.none, Val.none, Val.none, Val.none, Val.none, Val.none⟩
      ⟨false, Val.none, Val.none, [], [], "", 0⟩ []) "release" =
      some Val.none := by
  constructor <;> rfl

/-- C7 (amended): after the merge, every key *other than the canonical
`release` key* maps to a value that is neither empty nor `None`; the
source-specific override key (`provider-release` / `azuredisk-release`) has
been removed and `release` is always present — but `release` itself holds
`None` whenever no override was supplied, since the rename runs after the
purge. -/
theorem config_normalization (integ : IntegratorData) (kc : KubeControlData)
    (charmData : List (String × Val)) :
    (∀ k v, k ≠ "release" →
      pyGet (providerConfig integ kc charmData) k = some v →
      v ≠ Val.str "" ∧ v ≠ Val.none) ∧
    pyGet (providerConfig integ kc charmData) "provider-release" =
      Option.none ∧
    (pyGet (providerConfig integ kc charmData) "release").isSome = true ∧
    (∀ k v, k ≠ "release" →
      pyGet (diskConfig integ kc charmData) k = some v →
      v ≠ Val.str "" ∧ v ≠ Val.none) ∧
    pyGet (diskConfig integ kc charmData) "azuredisk-release" =
      Option.none ∧
    (pyGet (diskConfig integ kc charmData) "release").isSome = true := by
  have hp := fun d => renameRelease_pruneEmpty_spec "provider-release" d
    (by decide)
  have hd := fun d => renameRelease_pruneEmpty_spec "azuredisk-release" d
    (by decide)
  exact ⟨(hp _).1, (hp _).2.1, (hp _).2.2, (hd _).1, (hd _).2.1, (hd _).2.2⟩

/-- C7 amended-claim witness: at a ready integrator supplying `tenant-id`,
the surviving value is indeed neither empty nor `None`. -/
theorem config_normalization_witness :
    Val.str "tid" ≠ Val.str "" ∧ Val.str "tid" ≠ Val.none :=
  (config_normalization
    ⟨true, Val.str "tid", Val.none, Val.none, Val.none, Val.none, Val.none,
      Val.none, Val.none, Val.none, Val.none, Val.none⟩
    ⟨false, Val.none, Val.none, [], [], "", 0⟩ []).1
    "tenant-id" (Val.str "tid") (by decide) (by rfl)

/-! ## Claim C9 — non-mapping `control-node-selector` skips the patch -/

/-- C9: whenever the configured `control-node-selector` is not a dict
(including absent, hence `None`), both `UpdateControllerDeployment` patches
log and return before touching anything, leaving every document — matching
or not — unmodified, and the pipeline continues (no exception, the patch
returns normally). -/
theorem nodeSelector_type_guard (cfg : List (String × Val)) (obj : Doc)
    (h : ∀ m, pyGet cfg "control-node-selector" ≠ some (Val.smap m)) :
    Provider.updateControllerDeployment cfg obj = some obj ∧
    Disk.updateControllerDeployment cfg obj = some obj := by
  constructor
  · rw [Provider.updateControllerDeployment]
    split
    · rfl
    · rcases hv : pyGet cfg "control-node-selector" with _ | v
      · rfl
      · cases v with
        | smap m => exact absurd hv (h m)
        | none => rfl
        | str s => rfl
        | int n => rfl
        | bool b => rfl
        | num lit => rfl
        | taints ts => rfl
  · rw [Disk.updateControllerDeployment]
    split
    · rfl
    · rcases hv : pyGet cfg "control-node-selector" with _ | v
      · rfl
      · cases v with
        | smap m => exact absurd hv (h m)
        | none => rfl
        | str s => rfl
        | int n => rfl
        | bool b => rfl
        | num lit => rfl
        | taints ts => rfl

/-- C9 witness: with `control-node-selector` configured as a plain string,
both controller-deployment patches leave a matching Deployment document
untouched. -/
theorem nodeSelector_type_guard_witness :
    Provider.updateControllerDeployment
        [("control-node-selector", Val.str "k=v")]
        ⟨"Deployment", "cloud-controller-manager", [], Option.none, [],
          Option.none, [], [], [], []⟩ =
      some ⟨"Deployment", "cloud-controller-manager", [], Option.none, [],
        Option.none, [], [], [], []⟩ ∧
    Disk.updateControllerDeployment
        [("control-node-selector", Val.str "k=v")]
        ⟨"Deployment", "csi-azuredisk-controller", [], Option.none, [],
          Option.none, [], [], [], []⟩ =
      some ⟨"Deployment", "csi-azuredisk-controller", [], Option.none, [],
        Option.none, [], [], [], []⟩ := by
  constructor
  · exact (nodeSelector_type_guard _ _ (fun m hm => by simp [pyGet] at hm)).1
  · exact (nodeSelector_type_guard _ _ (fun m hm => by simp [pyGet] at hm)).2

/-! ## Claim C4 — no-op on unchanged hash -/

/-- C4: when every pre-check passes, every controller evaluates clean, and
the stored hash equals the freshly computed (summed) hash, the cycle makes
zero `apply_manifests` calls, ends with `deployed = true` and leaves the
stored hash unchanged. -/
theorem noop_on_unchanged_hash (stored : Stored)
    (checks : List (Option Status))
    (controllers : List (Option String × Nat)) (applyRaises : List Bool)
    {h : Nat} (hchecks : firstFailure checks = Option.none)
    (hevals : evalLoop controllers = Except.ok h)
    (hhash : stored.configHash = some h) :
    (mergeConfig stored checks controllers applyRaises).applyCalls = 0 ∧
    (mergeConfig stored checks controllers applyRaises).stored.deployed =
      true ∧
    (mergeConfig stored checks controllers applyRaises).stored.configHash =
      stored.configHash := by
  unfold mergeConfig installOrUpgrade
  rw [hchecks, hevals]
  simp [hhash]

/-- C4 witness: a concrete second cycle over two clean controllers whose
summed hash matches the stored one. -/
theorem noop_on_unchanged_hash_witness :
    (mergeConfig ⟨some 11, false⟩ [Option.none]
        [(Option.none, 5), (Option.none, 6)] [true, true]).applyCalls = 0 ∧
    (mergeConfig ⟨some 11, false⟩ [Option.none]
        [(Option.none, 5), (Option.none, 6)] [true, true]).stored.deployed =
      true ∧
    (mergeConfig ⟨some 11, false⟩ [Option.none]
        [(Option.none, 5), (Option.none, 6)] [true, true]).stored.configHash =
      (⟨some 11, false⟩ : Stored).configHash :=
  noop_on_unchanged_hash ⟨some 11, false⟩ [Option.none]
    [(Option.none, 5), (Option.none, 6)] [true, true] rfl rfl rfl

/-! ## Claim C3 — retryable apply failure -/

/-- C3: REFUTED as stated at a concrete input.  With a previously deployed
unit (`config_hash = 1`, `deployed = True`), all checks passing, a new
summed hash `11 ≠ 1` and the first apply raising `ManifestClientError`,
the cycle ends Waiting, defers the event and keeps the old hash — but
`deployed` does *not* retain its prior value: `_merge_config` clears it
before applying and the failure path never restores it. -/
theorem retryable_apply_counterexample :
    mergeConfig ⟨some 1, true⟩ [] [(Option.none, 5), (Option.none, 6)]
        [true, false] =
      ⟨⟨some 1, false⟩, Status.waiting "Waiting for kube-apiserver", 1,
        true⟩ ∧
    (mergeConfig ⟨some 1, true⟩ [] [(Option.none, 5), (Option.none, 6)]
        [true, false]).stored.deployed ≠ (⟨some 1, true⟩ : Stored).deployed := by
  exact ⟨rfl, by decide⟩

/-- C3 (amended): when every pre-check passes and a controller's apply
raises the retryable `ManifestClientError`, the unit goes Waiting, the
event is deferred, and the stored `config_hash` keeps its prior value (the
new hash is not recorded) — while `deployed` is left `false` for the cycle
regardless of its prior value (it is only set after a successful apply). -/
theorem retryable_apply_defers (stored : Stored)
    (checks : List (Option Status))
    (controllers : List (Option String × Nat)) (applyRaises : List Bool)
    {h : Nat} (hchecks : firstFailure checks = Option.none)
    (hevals : evalLoop controllers = Except.ok h)
    (hne : ¬stored.configHash = some h)
    (hfail : (applyLoop applyRaises).2 = false) :
    mergeConfig stored checks controllers applyRaises =
      ⟨⟨stored.configHash, false⟩, Status.waiting "Waiting for kube-apiserver",
        (applyLoop applyRaises).1, true⟩ := by
  obtain ⟨n, hn⟩ : ∃ n, applyLoop applyRaises = (n, false) :=
    ⟨(applyLoop applyRaises).1, by rw [← hfail]⟩
  unfold mergeConfig installOrUpgrade
  rw [hchecks, hevals]
  simp [hne, hn]

/-- C3 amended-claim witness. -/
theorem retryable_apply_defers_witness :
    mergeConfig ⟨some 1, true⟩ [] [(Option.none, 5)] [true] =
      ⟨⟨some 1, false⟩, Status.waiting "Waiting for kube-apiserver", 1,
        true⟩ :=
  retryable_apply_defers ⟨some 1, true⟩ [] [(Option.none, 5)] [true] rfl rfl
    (by decide) rfl

/-! ## Claim C5 — `evaluate()` gates on the required-key union -/

theorem evaluateProps_eq_none_iff (props : List String)
    (msgOf : String → String) (cfg : List (String × Val)) :
    evaluateProps props msgOf cfg = Option.none ↔
      ∀ p ∈ props, configTruthy cfg p = true := by
  induction props with
  | nil => simp [evaluateProps]
  | cons p ps ih =>
    by_cases hp : configTruthy cfg p = true
    · constructor
      · intro h q hq
        rcases List.mem_cons.mp hq with rfl | hq'
        · exact hp
        · exact (ih.mp
            (by simpa [evaluateProps, List.findSome?_cons, hp] using h)) q hq'
      · intro hall
        have := ih.mpr (fun q hq => hall q (List.mem_cons_of_mem p hq))
        simpa [evaluateProps, List.findSome?_cons, hp] using this
    · constructor
      · intro h
        simp [evaluateProps, List.findSome?_cons, hp] at h
      · intro hall
        exact absurd (hall p (List.mem_cons_self p ps)) hp

theorem evaluateProps_eq_some (props : List String)
    (msgOf : String → String) (cfg : List (String × Val)) (r : String)
    (h : evaluateProps props msgOf cfg = some r) :
    ∃ p ∈ props, configTruthy cfg p = false ∧ r = msgOf p := by
  induction props with
  | nil => simp [evaluateProps] at h
  | cons p ps ih =>
    by_cases hp : configTruthy cfg p = true
    · simp only [evaluateProps, List.findSome?_cons, hp, if_pos] at h
      obtain ⟨q, hq, hmsg⟩ := ih h
      exact ⟨q, List.mem_cons_of_mem p hq, hmsg⟩
    · simp only [evaluateProps, List.findSome?_cons, hp, if_neg] at h
      refine ⟨p, List.mem_cons_self p ps, by simpa using hp, ?_⟩
      injection h.symm

theorem evalLoop_error_of_some (controllers : List (Option String × Nat))
    (h : ∃ e ∈ controllers, e.1 ≠ Option.none) :
    ∃ r, evalLoop controllers = Except.error r := by
  induction controllers with
  | nil => simp at h
  | cons e rest ih =>
    obtain ⟨ev, hash⟩ := e
    cases ev with
    | some r => exact ⟨r, rfl⟩
    | none =>
      obtain ⟨e', he', hne⟩ := h
      rcases List.mem_cons.mp he' with rfl | hmem
      · simp at hne
      · obtain ⟨r, hr⟩ := ih ⟨e', hmem, hne⟩
        exact ⟨r, by simp [evalLoop, hr, Except.map]⟩

/-- A cycle in which some controller's `evaluate()` is non-null blocks
before any apply. -/
theorem mergeConfig_no_apply_of_eval (stored : Stored)
    (checks : List (Option Status))
    (controllers : List (Option String × Nat)) (applyRaises : List Bool)
    (h : ∃ e ∈ controllers, e.1 ≠ Option.none) :
    (mergeConfig stored checks controllers applyRaises).applyCalls = 0 := by
  unfold mergeConfig
  cases hc : firstFailure checks with
  | some st => rfl
  | none =>
    obtain ⟨r, hr⟩ := evalLoop_error_of_some controllers h
    rw [hr]

/-- C5: for every configuration, `evaluate()` returns `None` exactly when
every key of the fixed required union (the ten credential keys plus
`control-node-selector`, i.e. the union of the transforms' `REQUIRED`
sets) is present with a truthy — for these string/dict-valued keys,
non-empty — value; otherwise it returns the human-readable reason naming a
missing key, and such a cycle performs zero `apply_manifests` calls. -/
theorem evaluate_gates (cfg : List (String × Val)) :
    (providerEvaluate cfg = Option.none ↔
      ∀ p ∈ providerProps, configTruthy cfg p = true) ∧
    (∀ r, providerEvaluate cfg = some r →
      ∃ p ∈ providerProps, configTruthy cfg p = false ∧
        r = "Provider manifests waiting for definition of " ++ p) ∧
    (diskEvaluate cfg = Option.none ↔
      ∀ p ∈ diskProps, configTruthy cfg p = true) ∧
    (∀ r, diskEvaluate cfg = some r →
      ∃ p ∈ diskProps, configTruthy cfg p = false ∧
        r = "AzureDisk manifests waiting for definition of " ++ p) ∧
    (∀ stored checks hP hD applyRaises,
      providerEvaluate cfg ≠ Option.none ∨ diskEvaluate cfg ≠ Option.none →
      (mergeConfig stored checks
        [(providerEvaluate cfg, hP), (diskEvaluate cfg, hD)]
        applyRaises).applyCalls = 0) := by
  refine ⟨evaluateProps_eq_none_iff _ _ _,
    fun r h => evaluateProps_eq_some _ _ _ r h,
    evaluateProps_eq_none_iff _ _ _,
    fun r h => evaluateProps_eq_some _ _ _ r h,
    fun stored checks hP hD applyRaises h => ?_⟩
  apply mergeConfig_no_apply_of_eval
  rcases h with h | h
  · exact ⟨(providerEvaluate cfg, hP), by simp, h⟩
  · exact ⟨(diskEvaluate cfg, hD), by simp, h⟩

/-- C5 witness: the empty configuration is rejected with a reason naming a
required key, and the corresponding cycle applies nothing. -/
theorem evaluate_gates_witness :
    (∃ p ∈ providerProps, configTruthy [] p = false ∧
      "Provider manifests waiting for definition of aad-client-id" =
        "Provider manifests waiting for definition of " ++ p) ∧
    (mergeConfig ⟨Option.none, false⟩ []
      [(providerEvaluate [], 1), (diskEvaluate [], 2)] [true]).applyCalls =
      0 :=
  ⟨(evaluate_gates []).2.1 _ rfl,
    (evaluate_gates []).2.2.2.2 ⟨Option.none, false⟩ [] 1 2 [true]
      (Or.inl (by decide))⟩

/-! ## Claim C10 — `--wait-routes` assertion and rewrite -/

/-- `l[-1] = x` is "drop the old last element, append `x`". -/
theorem setLast_eq {α : Type} (x : α) (l : List α) (h : l ≠ []) :
    setLast x l = l.dropLast ++ [x] := by
  induction l with
  | nil => exact absurd rfl h
  | cons a t ih =>
    cases t with
    | nil => simp [setLast]
    | cons b t' =>
      show a :: setLast x (b :: t') = (a :: b :: t').dropLast ++ [x]
      rw [ih (by simp), List.dropLast_cons₂]
      rfl

/-- Mutating the container found by `next(filter(...))` rewrites exactly
that element of the list (provided the mutation keeps its name). -/
theorem findContainer_updateFirst (cs : List Container) (nm : String)
    (f : Container → Container) {c : Container}
    (hf : findContainer cs nm = some c) (hpres : (f c).name = c.name) :
    findContainer (updateFirstContainer cs nm f) nm = some (f c) := by
  induction cs with
  | nil => simp [findContainer] at hf
  | cons c₀ rest ih =>
    by_cases h₀ : c₀.name = nm
    · have hc : c = c₀ := by
        have : findContainer (c₀ :: rest) nm = some c₀ := by
          simp [findContainer, List.find?_cons, h₀]
        rw [this] at hf
        injection hf.symm
      subst hc
      simp [updateFirstContainer, findContainer, List.find?_cons, h₀,
        hpres ▸ h₀]
    · have hstep : findContainer (c₀ :: rest) nm = findContainer rest nm := by
        simp [findContainer, List.find?_cons, h₀]
      rw [hstep] at hf
      simp only [updateFirstContainer, if_neg h₀]
      rw [show findContainer (c₀ :: updateFirstContainer rest nm f) nm =
          findContainer (updateFirstContainer rest nm f) nm by
        simp [findContainer, List.find?_cons, h₀]]
      exact ih hf

/-- Reduction of the command-rewrite half on a document whose matching
container and last command element are known. -/
theorem updateNodeCommand_spec (obj : Doc) (c : Container) (lastCmd : String)
    (hfind : findContainer obj.containers "cloud-node-manager" = some c)
    (hlast : c.command.getLast? = some lastCmd) :
    Provider.updateNodeCommand obj =
      (if strContains lastCmd "--wait-routes" then
        some { obj with
               containers := updateFirstContainer obj.containers
                 "cloud-node-manager"
                 (fun c =>
                   { c with command := setLast "--wait-routes=false" c.command }) }
      else Option.none) := by
  unfold Provider.updateNodeCommand
  rw [hfind]
  show (match c.command.getLast? with
    | Option.none => Option.none
    | some lastCmd =>
      if strContains lastCmd "--wait-routes" then
        some { obj with
               containers := updateFirstContainer obj.containers
                 "cloud-node-manager"
                 (fun c =>
                   { c with command := setLast "--wait-routes=false" c.command }) }
      else Option.none) = _
  rw [hlast]

/-- C10: on a `cloud-node-manager` DaemonSet holding a container of that
name, `UpdateNode` raises (an `AssertionError`) when the last element of
the container's command does not contain `--wait-routes`, and otherwise
rewrites exactly that last element to `--wait-routes=false`, keeping the
rest of the command list. -/
theorem wait_routes_forced_false (cfg : List (String × Val)) (obj : Doc)
    (c : Container) (lastCmd : String)
    (hkind : obj.kind = "DaemonSet") (hname : obj.name = "cloud-node-manager")
    (hfind : findContainer obj.containers "cloud-node-manager" = some c)
    (hlast : c.command.getLast? = some lastCmd) :
    (strContains lastCmd "--wait-routes" = false →
      Provider.updateNode cfg obj = Option.none) ∧
    (strContains lastCmd "--wait-routes" = true →
      ∃ obj', Provider.updateNode cfg obj = some obj' ∧
        findContainer obj'.containers "cloud-node-manager" =
          some { c with
                 command := c.command.dropLast ++ ["--wait-routes=false"] }) := by
  have hne : c.command ≠ [] := by
    intro h
    rw [h] at hlast
    simp at hlast
  have hun : Provider.updateNode cfg obj =
      Provider.updateNodeCommand
        { obj with tolerations := addMissingTolerations cfg obj.tolerations } := by
    unfold Provider.updateNode
    rw [if_neg (by simp [hkind, hname])]
  have hred := updateNodeCommand_spec
    { obj with tolerations := addMissingTolerations cfg obj.tolerations }
    c lastCmd hfind hlast
  constructor
  · intro hfalse
    rw [hun, hred, if_neg (by simp [hfalse])]
  · intro htrue
    refine ⟨_, by rw [hun, hred, if_pos htrue], ?_⟩
    have := findContainer_updateFirst obj.containers "cloud-node-manager"
      (fun c => { c with command := setLast "--wait-routes=false" c.command })
      hfind rfl
    rw [this]
    simp only [setLast_eq _ _ hne]

/-- C10 witness: a node-manager DaemonSet whose container command ends in a
`--wait-routes=true` flag gets it forced to `false`. -/
theorem wait_routes_forced_false_witness :
    ∃ obj', Provider.updateNode []
        ⟨"DaemonSet", "cloud-node-manager", [], Option.none, [], Option.none,
          [], [], [⟨"cloud-node-manager", "img", [],
            ["cloud-node-manager", "--wait-routes=true"]⟩], []⟩ = some obj' ∧
      findContainer obj'.containers "cloud-node-manager" =
        some ⟨"cloud-node-manager", "img", [],
          ["cloud-node-manager", "--wait-routes=false"]⟩ :=
  (wait_routes_forced_false []
    ⟨"DaemonSet", "cloud-node-manager", [], Option.none, [], Option.none,
      [], [], [⟨"cloud-node-manager", "img", [],
        ["cloud-node-manager", "--wait-routes=true"]⟩], []⟩
    ⟨"cloud-node-manager", "img", [],
      ["cloud-node-manager", "--wait-routes=true"]⟩
    "--wait-routes=true" rfl rfl rfl rfl).2 (by decide)

/-! ## Claim C8 — optional secret fields: clear-if-absent, camelize-if-present -/

/-- C8: for any prior payload, the secret rewrite drops the camelized form
of every optional field that is absent (or falsy) in the configuration —
so a previously-set optional field is cleared by omission — and installs
the camelized form of every optional field present with a truthy value;
the same holds for the payload of the Secret document the disk
`WriteSecret` Addition emits. -/
theorem optional_field_clearing (cfg payload : List (String × Val))
    (o : String) (v : Val) (hnd : (cfg.map Prod.fst).Nodup)
    (ho : o ∈ Provider.updateSecretOptional) :
    (configTruthy cfg o = false →
      pyGet (Provider.secretPayload Provider.updateSecretRequired
          Provider.updateSecretOptional cfg payload) (camelize o) =
        Option.none ∧
      ∀ s, Disk.writeSecret cfg = some s →
        pyGet s.cloudConfig (camelize o) = Option.none) ∧
    (pyGet cfg o = some v → truthy v = true →
      pyGet (Provider.secretPayload Provider.updateSecretRequired
          Provider.updateSecretOptional cfg payload) (camelize o) = some v ∧
      ∀ s, Disk.writeSecret cfg = some s →
        pyGet s.cloudConfig (camelize o) = some v) := by
  have hinj : ∀ a ∈ Provider.updateSecretOptional,
      ∀ b ∈ Provider.updateSecretOptional, camelize a = camelize b → a = b := by
    decide
  constructor
  · intro hfalsy
    refine ⟨pyGet_secretPayload_optional_absent _ _ _ _ ho hinj hnd hfalsy,
      ?_⟩
    intro s hs
    by_cases hguard : Disk.writeSecretGuard cfg = true
    · rw [Disk.writeSecret, if_pos hguard] at hs
      exact absurd hs (by simp)
    · rw [Disk.writeSecret, if_neg hguard] at hs
      obtain rfl := (Option.some.inj hs).symm
      exact pyGet_secretPayload_optional_absent _ _ _ _ ho hinj hnd hfalsy
  · intro hget htruthy
    refine ⟨pyGet_secretPayload_optional_present _ _ _ _ ho hinj hnd hget
      htruthy, ?_⟩
    intro s hs
    by_cases hguard : Disk.writeSecretGuard cfg = true
    · rw [Disk.writeSecret, if_pos hguard] at hs
      exact absurd hs (by simp)
    · rw [Disk.writeSecret, if_neg hguard] at hs
      obtain rfl := (Option.some.inj hs).symm
      exact pyGet_secretPayload_optional_present _ _ _ _ ho hinj hnd hget
        htruthy

/-- C8 witness: with `vm-type` omitted, a previously-set `vmType` is
cleared; with `vm-type = "vmss"` it is set camelized. -/
theorem optional_field_clearing_witness :
    pyGet (Provider.secretPayload Provider.updateSecretRequired
        Provider.updateSecretOptional [] [("vmType", Val.str "old")])
      "vmType" = Option.none ∧
    pyGet (Provider.secretPayload Provider.updateSecretRequired
        Provider.updateSecretOptional [("vm-type", Val.str "vmss")]
        [("vmType", Val.str "old")]) "vmType" = some (Val.str "vmss") :=
  ⟨((optional_field_clearing [] [("vmType", Val.str "old")] "vm-type"
      Val.none (by decide) (by decide)).1 rfl).1,
   ((optional_field_clearing [("vm-type", Val.str "vmss")]
      [("vmType", Val.str "old")] "vm-type" (Val.str "vmss") (by decide)
      (by decide)).2 rfl rfl).1⟩

/-! ## Claim C6 — idempotence of the Transform pipelines

### String-splitting lemmas (for the registry rewrite and argument parsing) -/

section SplitLemmas

variable {sep : Char}

theorem splitCharAux_ne_nil (l acc : List Char) :
    splitCharAux sep l acc ≠ [] := by
  induction l generalizing acc with
  | nil => simp [splitCharAux]
  | cons c cs ih =>
    by_cases h : c = sep <;> simp [splitCharAux, h, ih]

theorem splitCharAux_of_not_mem (l acc : List Char) (h : sep ∉ l) :
    splitCharAux sep l acc = [acc.reverse ++ l] := by
  induction l generalizing acc with
  | nil => simp [splitCharAux]
  | cons c cs ih =>
    simp only [List.mem_cons, not_or] at h
    have hc : ¬c = sep := fun he => h.1 he.symm
    rw [splitCharAux, if_neg hc, ih (c :: acc) h.2]
    simp

theorem splitCharAux_single_sep (l₁ l₂ acc : List Char) (h₁ : sep ∉ l₁)
    (h₂ : sep ∉ l₂) :
    splitCharAux sep (l₁ ++ sep :: l₂) acc = [acc.reverse ++ l₁, l₂] := by
  induction l₁ generalizing acc with
  | nil =>
    rw [List.nil_append, splitCharAux, if_pos rfl,
      splitCharAux_of_not_mem l₂ [] h₂]
    simp
  | cons c cs ih =>
    simp only [List.mem_cons, not_or] at h₁
    have hc : ¬c = sep := fun he => h₁.1 he.symm
    rw [List.cons_append, splitCharAux, if_neg hc, ih (c :: acc) h₁.2]
    simp

theorem splitCharAux_getLast (l₁ l₂ acc : List Char) :
    (splitCharAux sep (l₁ ++ sep :: l₂) acc).getLast? =
      (splitCharAux sep l₂ []).getLast? := by
  induction l₁ generalizing acc with
  | nil =>
    rw [List.nil_append, splitCharAux, if_pos rfl]
    rcases htail : splitCharAux sep l₂ [] with _ | ⟨b, t⟩
    · exact absurd htail (splitCharAux_ne_nil l₂ [])
    · rw [List.getLast?_cons_cons]
  | cons c cs ih =>
    by_cases hc : c = sep
    · rw [List.cons_append, splitCharAux, if_pos hc]
      rcases htail : splitCharAux sep (cs ++ sep :: l₂) [] with _ | ⟨b, t⟩
      · exact absurd htail (splitCharAux_ne_nil _ [])
      · rw [List.getLast?_cons_cons, ← htail, ih []]
    · rw [List.cons_append, splitCharAux, if_neg hc, ih (c :: acc)]

theorem splitCharAux_parts_sep_free (l acc : List Char) (hacc : sep ∉ acc) :
    ∀ p ∈ splitCharAux sep l acc, sep ∉ p := by
  induction l generalizing acc with
  | nil =>
    intro p hp
    simp only [splitCharAux, List.mem_singleton] at hp
    subst hp
    simpa using hacc
  | cons c cs ih =>
    intro p hp
    by_cases hc : c = sep
    · rw [splitCharAux, if_pos hc] at hp
      rcases List.mem_cons.mp hp with rfl | hp'
      · simpa using hacc
      · exact ih [] (by simp) p hp'
    · rw [splitCharAux, if_neg hc] at hp
      refine ih (c :: acc) ?_ p hp
      simp only [List.mem_cons, not_or]
      exact ⟨fun he => hc he.symm, hacc⟩

end SplitLemmas

/-- The last `/`-component of `r ++ "/" ++ x` is `x` itself whenever `x`
contains no slash — so the registry rewrite is stable. -/
theorem lastImageComponent_append (r x : String) (hx : '/' ∉ x.data) :
    lastImageComponent (r ++ "/" ++ x) = x := by
  have hdata : (r ++ "/" ++ x).data = r.data ++ '/' :: x.data := by
    rw [String.data_append, String.data_append, List.append_assoc]
    rfl
  unfold lastImageComponent splitChar
  rw [hdata, List.getLast?_map, splitCharAux_getLast r.data x.data [],
    splitCharAux_of_not_mem x.data [] hx]
  rfl

/-- Components produced by `lastImageComponent` are slash-free. -/
theorem lastImageComponent_sep_free (s : String) :
    '/' ∉ (lastImageComponent s).data := by
  unfold lastImageComponent splitChar
  rw [List.getLast?_map]
  rcases hlast : (splitCharAux '/' s.data []).getLast? with _ | p
  · exact absurd (List.getLast?_eq_none_iff.mp hlast)
      (splitCharAux_ne_nil s.data [])
  · simpa using splitCharAux_parts_sep_free s.data [] (by simp) p
      (List.mem_of_mem_getLast? hlast)

/-! ### Fix-point lemmas for the label and registry transforms -/

theorem map_eq_self_of_forall {α : Type} (l : List α) (f : α → α)
    (h : ∀ a ∈ l, f a = a) : l.map f = l := by
  conv_rhs => rw [← List.map_id l]
  exact List.map_congr_left h

/-- A document that already carries both ownership labels is a fixed point
of `ManifestLabel`. -/
theorem manifestLabel_fixes (a m : String) (x : Doc)
    (h1 : pyGet x.labels "juju.io/application" = some a)
    (h2 : pyGet x.labels "juju.io/manifest" = some m) :
    manifestLabel a m x = x := by
  unfold manifestLabel
  rw [pySet_eq_self_of_pyGet _ h1, pySet_eq_self_of_pyGet _ h2]

/-- `ManifestLabel` output carries both labels. -/
theorem manifestLabel_labels (a m : String) (x : Doc) :
    pyGet (manifestLabel a m x).labels "juju.io/application" = some a ∧
    pyGet (manifestLabel a m x).labels "juju.io/manifest" = some m := by
  constructor
  · show pyGet (pySet (pySet x.labels "juju.io/application" a)
      "juju.io/manifest" m) "juju.io/application" = some a
    rw [pyGet_pySet_ne _ _ (by decide), pyGet_pySet_self]
  · show pyGet (pySet (pySet x.labels "juju.io/application" a)
      "juju.io/manifest" m) "juju.io/manifest" = some m
    rw [pyGet_pySet_self]

/-- A document whose container images already carry the configured registry
prefix is a fixed point of `ConfigRegistry`. -/
theorem configRegistry_fixes (cfg : List (String × Val)) (x : Doc)
    (h : ∀ r, pyGet cfg "image-registry" = some (Val.str r) → r ≠ "" →
      ∀ c ∈ x.containers, c.image = r ++ "/" ++ lastImageComponent c.image) :
    configRegistry cfg x = x := by
  unfold configRegistry
  rcases hv : pyGet cfg "image-registry" with _ | v
  · rfl
  · cases v with
    | str r =>
      show registryRewrite r x = x
      unfold registryRewrite
      by_cases hr : r = ""
      · simp [hr]
      · rw [if_pos (by simpa using hr)]
        have : x.containers.map
            (fun c => { c with image := r ++ "/" ++ lastImageComponent c.image }) =
            x.containers := by
          refine map_eq_self_of_forall _ _ (fun c hc => ?_)
          rw [← h r hv hr c hc]
        rw [this]
    | none => rfl
    | int n => rfl
    | bool b => rfl
    | num lit => rfl
    | smap m => rfl
    | taints ts => rfl

/-- Every container image in a `ConfigRegistry` output already carries the
registry prefix. -/
theorem configRegistry_output_fixed (cfg : List (String × Val)) (x : Doc) :
    ∀ r, pyGet cfg "image-registry" = some (Val.str r) → r ≠ "" →
      ∀ c ∈ (configRegistry cfg x).containers,
        c.image = r ++ "/" ++ lastImageComponent c.image := by
  intro r hv hr c hc
  unfold configRegistry at hc
  rw [hv] at hc
  have hc' : c ∈ x.containers.map
      (fun c => { c with image := r ++ "/" ++ lastImageComponent c.image }) := by
    have : c ∈ (registryRewrite r x).containers := hc
    unfold registryRewrite at this
    rw [if_pos (by simpa using hr)] at this
    exact this
  obtain ⟨c₀, hc₀, rfl⟩ := List.mem_map.mp hc'
  show r ++ "/" ++ lastImageComponent c₀.image =
    r ++ "/" ++ lastImageComponent (r ++ "/" ++ lastImageComponent c₀.image)
  rw [lastImageComponent_append r _ (lastImageComponent_sep_free c₀.image)]

/-! ### `UpdateSecret` idempotence -/

theorem updateSecret_mismatch (cfg : List (String × Val)) (x : Doc)
    (h : ¬(x.kind = "Secret" ∧ x.name = Provider.SECRET_NAME)) :
    Provider.updateSecret cfg x = some x := by
  have hcond : (x.kind == "Secret" && x.name == Provider.SECRET_NAME) =
      false := by
    by_cases h1 : x.kind = "Secret"
    · have h2 : x.name ≠ Provider.SECRET_NAME := fun h2 => h ⟨h1, h2⟩
      simp [h2]
    · simp [h1]
  unfold Provider.updateSecret
  rw [if_pos (by simp [hcond])]

theorem updateSecret_preserves (cfg : List (String × Val)) {x y : Doc}
    (h : Provider.updateSecret cfg x = some y) :
    y.kind = x.kind ∧ y.name = x.name ∧ y.labels = x.labels ∧
    y.containers = x.containers ∧ y.selectorMatchLabels =
      x.selectorMatchLabels ∧ y.replicas = x.replicas ∧
    y.nodeSelector = x.nodeSelector ∧ y.tolerations = x.tolerations ∧
    y.topologySpreadConstraints = x.topologySpreadConstraints := by
  unfold Provider.updateSecret at h
  split at h
  · injection h with h
    subst h
    exact ⟨rfl, rfl, rfl, rfl, rfl, rfl, rfl, rfl, rfl⟩
  · split at h
    · injection h with h
      subst h
      exact ⟨rfl, rfl, rfl, rfl, rfl, rfl, rfl, rfl, rfl⟩
    · split at h
      · exact absurd h (by simp)
      · injection h with h
        subst h
        exact ⟨rfl, rfl, rfl, rfl, rfl, rfl, rfl, rfl, rfl⟩

theorem updateSecret_eq_of_some (cfg : List (String × Val)) (x : Doc)
    (j : List (String × Val))
    (hcond : (x.kind == "Secret" && x.name == Provider.SECRET_NAME) = true)
    (hg : ¬Provider.secretGuard cfg = true)
    (hj : pyGet x.stringData "azure.json" = some j) :
    Provider.updateSecret cfg x =
      some { x with
             stringData := pySet x.stringData "azure.json"
               (Provider.secretPayload Provider.updateSecretRequired
                 Provider.updateSecretOptional cfg j) } := by
  unfold Provider.updateSecret
  rw [if_neg (by simp [hcond]), if_neg hg, hj]

theorem updateSecret_idem (cfg : List (String × Val)) {x y : Doc}
    (hnd : (cfg.map Prod.fst).Nodup)
    (h : Provider.updateSecret cfg x = some y) :
    Provider.updateSecret cfg y = some y := by
  by_cases hm : x.kind = "Secret" ∧ x.name = Provider.SECRET_NAME
  · have hcond : (x.kind == "Secret" && x.name == Provider.SECRET_NAME) =
        true := by simp [hm.1, hm.2]
    by_cases hg : Provider.secretGuard cfg = true
    · unfold Provider.updateSecret at h
      rw [if_neg (by simp [hcond]), if_pos hg] at h
      injection h with h
      subst h
      unfold Provider.updateSecret
      rw [if_neg (by simp [hcond]), if_pos hg]
    · rcases hj : pyGet x.stringData "azure.json" with _ | j
      · unfold Provider.updateSecret at h
        rw [if_neg (by simp [hcond]), if_neg hg, hj] at h
        exact absurd h (by simp)
      · rw [updateSecret_eq_of_some cfg x j hcond hg hj] at h
        injection h with h
        subst h
        set P := Provider.secretPayload Provider.updateSecretRequired
          Provider.updateSecretOptional cfg j with hP
        have hsd : ({ x with
            stringData := pySet x.stringData "azure.json" P } : Doc).stringData =
            pySet x.stringData "azure.json" P := rfl
        rw [updateSecret_eq_of_some cfg _ P (by simpa using hcond) hg
          (by rw [hsd]; exact pyGet_pySet_self _ _ _)]
        rw [show Provider.secretPayload Provider.updateSecretRequired
            Provider.updateSecretOptional cfg P = P from
          secretPayload_idem Provider.updateSecretRequired
            Provider.updateSecretOptional cfg j hnd (by decide) (by decide)
            (by decide)]
        rw [hsd, pySet_eq_self_of_pyGet _ (pyGet_pySet_self _ _ _)]
  · rw [updateSecret_mismatch cfg x hm] at h
    injection h with h
    subst h
    exact updateSecret_mismatch cfg x hm

/-! ### Argument parsing / serialisation round-trip -/

/-- Value-free membership bound for `pySet`. -/
theorem mem_pySet {V : Type} {d : List (String × V)} {k : String} {v : V}
    {kv' : String × V} (h : kv' ∈ pySet d k v) : kv' ∈ d ∨ kv' = (k, v) := by
  induction d with
  | nil => simpa [pySet] using h
  | cons kv₀ rest ih =>
    obtain ⟨k₀, v₀⟩ := kv₀
    by_cases h₀ : k₀ = k
    · rw [pySet, if_pos h₀] at h
      rcases List.mem_cons.mp h with rfl | h'
      · exact Or.inr rfl
      · exact Or.inl (List.mem_cons_of_mem _ h')
    · rw [pySet, if_neg h₀] at h
      rcases List.mem_cons.mp h with rfl | h'
      · exact Or.inl (List.mem_cons_self _ _)
      · rcases ih h' with h'' | h''
        · exact Or.inl (List.mem_cons_of_mem _ h'')
        · exact Or.inr h''

theorem keys_pySet {V : Type} {d : List (String × V)} {k k' : String}
    {v : V} (h : k' ∈ (pySet d k v).map Prod.fst) :
    k' ∈ d.map Prod.fst ∨ k' = k := by
  obtain ⟨kv', hkv', rfl⟩ := List.mem_map.mp h
  rcases mem_pySet hkv' with h' | h'
  · exact Or.inl (List.mem_map.mpr ⟨kv', h', rfl⟩)
  · subst h'
    exact Or.inr rfl

theorem pySet_keys_nodup {V : Type} {d : List (String × V)} (k : String)
    (v : V) (hnd : (d.map Prod.fst).Nodup) :
    ((pySet d k v).map Prod.fst).Nodup := by
  induction d with
  | nil => simp [pySet]
  | cons kv₀ rest ih =>
    obtain ⟨k₀, v₀⟩ := kv₀
    simp only [List.map_cons, List.nodup_cons] at hnd
    by_cases h₀ : k₀ = k
    · subst h₀
      simpa [pySet, List.nodup_cons] using hnd
    · rw [pySet, if_neg h₀]
      simp only [List.map_cons, List.nodup_cons]
      refine ⟨fun hmem => ?_, ih hnd.2⟩
      rcases keys_pySet hmem with h' | h'
      · exact hnd.1 h'
      · exact h₀ h'

theorem mem_pyPop {V : Type} {d : List (String × V)} {k : String}
    {kv' : String × V} (h : kv' ∈ pyPop d k) : kv' ∈ d := by
  rw [pyPop_eq_filter] at h
  exact List.mem_of_mem_filter h

theorem pyPop_keys_nodup {V : Type} {d : List (String × V)} (k : String)
    (hnd : (d.map Prod.fst).Nodup) : ((pyPop d k).map Prod.fst).Nodup := by
  rw [pyPop_eq_filter]
  exact hnd.sublist ((List.filter_sublist d).map Prod.fst)

/-- Characterisation of a successful single-argument parse. -/
theorem parseArg_eq_some {arg : String} {kv : String × String}
    (h : Provider.parseArg arg = some kv) : splitChar '=' arg = [kv.1, kv.2] := by
  unfold Provider.parseArg at h
  rcases hsc : splitChar '=' arg with _ | ⟨k₀, _ | ⟨v₀, _ | ⟨w₀, t⟩⟩⟩ <;>
    rw [hsc] at h
  · exact absurd h (by simp)
  · exact absurd h (by simp)
  · injection h with h
    subst h
    rfl
  · exact absurd h (by simp)

/-- Both halves of a parsed argument are `=`-free. -/
theorem parseArg_free {arg : String} {kv : String × String}
    (h : Provider.parseArg arg = some kv) :
    '=' ∉ kv.1.data ∧ '=' ∉ kv.2.data := by
  have hsc := parseArg_eq_some h
  have hparts := @splitCharAux_parts_sep_free '=' arg.data []
    (by simp)
  unfold splitChar at hsc
  have h1 : kv.1.data ∈ splitCharAux '=' arg.data [] := by
    have : (kv.1 : String) ∈ (splitCharAux '=' arg.data []).map String.mk := by
      rw [hsc]
      simp
    obtain ⟨p, hp, hpe⟩ := List.mem_map.mp this
    rw [← hpe]
    exact hp
  have h2 : kv.2.data ∈ splitCharAux '=' arg.data [] := by
    have : (kv.2 : String) ∈ (splitCharAux '=' arg.data []).map String.mk := by
      rw [hsc]
      simp
    obtain ⟨p, hp, hpe⟩ := List.mem_map.mp this
    rw [← hpe]
    exact hp
  exact ⟨hparts _ h1, hparts _ h2⟩

/-- Serialising an `=`-free pair parses back to it. -/
theorem parseArg_serialize (k v : String) (hk : '=' ∉ k.data)
    (hv : '=' ∉ v.data) : Provider.parseArg (k ++ "=" ++ v) = some (k, v) := by
  have hdata : (k ++ "=" ++ v).data = k.data ++ '=' :: v.data := by
    rw [String.data_append, String.data_append, List.append_assoc]
    rfl
  unfold Provider.parseArg splitChar
  rw [hdata, splitCharAux_single_sep k.data v.data [] hk hv]
  rfl

theorem parseArgs_fold_none (args : List String) :
    args.foldl Provider.parseArgsStep Option.none = Option.none := by
  induction args with
  | nil => rfl
  | cons a args ih =>
    rw [List.foldl_cons]
    exact ih

/-- Fold invariant: every entry of a successful parse is `=`-free. -/
theorem parseArgs_fold_free (args : List String)
    (acc d : List (String × String))
    (hacc : ∀ kv ∈ acc, '=' ∉ kv.1.data ∧ '=' ∉ kv.2.data)
    (h : args.foldl Provider.parseArgsStep (some acc) = some d) :
    ∀ kv ∈ d, '=' ∉ kv.1.data ∧ '=' ∉ kv.2.data := by
  induction args generalizing acc with
  | nil =>
    injection h with h
    subst h
    exact hacc
  | cons a args ih =>
    rw [List.foldl_cons] at h
    rcases hpa : Provider.parseArg a with _ | kv₀
    · rw [show args.foldl Provider.parseArgsStep (Provider.parseArgsStep (some acc) a) =
          args.foldl Provider.parseArgsStep Option.none by
        rw [show Provider.parseArgsStep (some acc) a = Option.none by
          simp [Provider.parseArgsStep, hpa]],
        parseArgs_fold_none] at h
      exact absurd h (by simp)
    · rw [show args.foldl Provider.parseArgsStep (Provider.parseArgsStep (some acc) a) =
          args.foldl Provider.parseArgsStep (some (pySet acc kv₀.1 kv₀.2)) by
        rw [show Provider.parseArgsStep (some acc) a =
          some (pySet acc kv₀.1 kv₀.2) by simp [Provider.parseArgsStep, hpa]]] at h
      refine ih _ ?_ h
      intro kv hkv
      rcases mem_pySet hkv with h' | h'
      · exact hacc kv h'
      · subst h'
        exact parseArg_free hpa

/-- Fold invariant: a successful parse has distinct keys. -/
theorem parseArgs_fold_nodup (args : List String)
    (acc d : List (String × String)) (hacc : (acc.map Prod.fst).Nodup)
    (h : args.foldl Provider.parseArgsStep (some acc) = some d) :
    (d.map Prod.fst).Nodup := by
  induction args generalizing acc with
  | nil =>
    injection h with h
    subst h
    exact hacc
  | cons a args ih =>
    rw [List.foldl_cons] at h
    rcases hpa : Provider.parseArg a with _ | kv₀
    · rw [show args.foldl Provider.parseArgsStep (Provider.parseArgsStep (some acc) a) =
          args.foldl Provider.parseArgsStep Option.none by
        rw [show Provider.parseArgsStep (some acc) a = Option.none by
          simp [Provider.parseArgsStep, hpa]],
        parseArgs_fold_none] at h
      exact absurd h (by simp)
    · rw [show args.foldl Provider.parseArgsStep (Provider.parseArgsStep (some acc) a) =
          args.foldl Provider.parseArgsStep (some (pySet acc kv₀.1 kv₀.2)) by
        rw [show Provider.parseArgsStep (some acc) a =
          some (pySet acc kv₀.1 kv₀.2) by simp [Provider.parseArgsStep, hpa]]] at h
      exact ih _ (pySet_keys_nodup _ _ hacc) h

/-- Re-parsing a serialised `=`-free dict with distinct keys recovers it. -/
theorem parseArgs_serialize (d : List (String × String))
    (hnd : (d.map Prod.fst).Nodup)
    (hfree : ∀ kv ∈ d, '=' ∉ kv.1.data ∧ '=' ∉ kv.2.data) :
    Provider.parseArgs (Provider.serializeArgs d) = some d := by
  have hfold : ∀ (e : List (String × String)) acc,
      (∀ kv ∈ e, '=' ∉ kv.1.data ∧ '=' ∉ kv.2.data) →
      (Provider.serializeArgs e).foldl Provider.parseArgsStep (some acc) =
        some (pyUpdate acc e) := by
    intro e
    induction e with
    | nil => intro acc _; rfl
    | cons kv rest ih =>
      intro acc hfr
      obtain ⟨k, v⟩ := kv
      have hkv := hfr (k, v) (List.mem_cons_self _ _)
      show (Provider.serializeArgs rest).foldl Provider.parseArgsStep
        (Provider.parseArgsStep (some acc) (k ++ "=" ++ v)) = _
      rw [show Provider.parseArgsStep (some acc) (k ++ "=" ++ v) =
          some (pySet acc k v) by
        simp [Provider.parseArgsStep, parseArg_serialize k v hkv.1 hkv.2]]
      exact ih _ (fun kv' h' => hfr kv' (List.mem_cons_of_mem _ h'))
  show (Provider.serializeArgs d).foldl Provider.parseArgsStep (some []) = some d
  rw [hfold d [] hfree]
  rw [pyUpdate_eq_append [] d (fun kv _ => rfl) hnd]
  rfl

/-! ### `_update_args` dict manipulations: idempotence and round-trip
preconditions -/

/-- The configured `cluster-tag`, if truthy, stringifies without an `=`
(true of the cluster tags `kube-control` hands out; a tag containing `=`
would make the re-parse of the rewritten arguments crash on a later
pass). -/
def clusterTagSafe (cfg : List (String × Val)) : Prop :=
  ∀ v, pyGet cfg "cluster-tag" = some v → truthy v = true →
    '=' ∉ (pyStr v).data

theorem clusterNameOp_eq_of_truthy (cfg : List (String × Val))
    (d : List (String × String)) {v : Val}
    (hv : pyGet cfg "cluster-tag" = some v) (ht : truthy v = true) :
    Provider.clusterNameOp cfg d = pySet d "--cluster-name" (pyStr v) := by
  unfold Provider.clusterNameOp
  rw [hv]
  show (if truthy v = true then pySet d "--cluster-name" (pyStr v) else d) = _
  rw [if_pos ht]

theorem clusterNameOp_eq_of_no_tag (cfg : List (String × Val))
    (d : List (String × String))
    (h : ∀ v, pyGet cfg "cluster-tag" = some v → truthy v = false) :
    Provider.clusterNameOp cfg d = d := by
  unfold Provider.clusterNameOp
  rcases hv : pyGet cfg "cluster-tag" with _ | v
  · rfl
  · show (if truthy v = true then pySet d "--cluster-name" (pyStr v) else d) = d
    rw [if_neg (by simp [h v hv])]

/-- Case split wrapper: either a truthy tag is configured or the op is the
identity. -/
theorem clusterNameOp_cases (cfg : List (String × Val)) :
    (∃ v, pyGet cfg "cluster-tag" = some v ∧ truthy v = true) ∨
    (∀ v, pyGet cfg "cluster-tag" = some v → truthy v = false) := by
  rcases hv : pyGet cfg "cluster-tag" with _ | v
  · exact Or.inr (fun v h => absurd h (by simp))
  · by_cases ht : truthy v = true
    · exact Or.inl ⟨v, rfl, ht⟩
    · refine Or.inr (fun w h => ?_)
      injection h with h
      subst h
      simpa using ht

theorem mem_clusterNameOp {cfg : List (String × Val)}
    {d : List (String × String)} {kv : String × String}
    (h : kv ∈ Provider.clusterNameOp cfg d) :
    kv ∈ d ∨ ∃ v, pyGet cfg "cluster-tag" = some v ∧ truthy v = true ∧
      kv = ("--cluster-name", pyStr v) := by
  rcases clusterNameOp_cases cfg with ⟨v, hv, ht⟩ | hno
  · rw [clusterNameOp_eq_of_truthy cfg d hv ht] at h
    rcases mem_pySet h with h' | h'
    · exact Or.inl h'
    · exact Or.inr ⟨v, hv, ht, h'⟩
  · rw [clusterNameOp_eq_of_no_tag cfg d hno] at h
    exact Or.inl h

theorem clusterNameOp_keys_nodup (cfg : List (String × Val))
    {d : List (String × String)} (hnd : (d.map Prod.fst).Nodup) :
    ((Provider.clusterNameOp cfg d).map Prod.fst).Nodup := by
  rcases clusterNameOp_cases cfg with ⟨v, hv, ht⟩ | hno
  · rw [clusterNameOp_eq_of_truthy cfg d hv ht]
    exact pySet_keys_nodup _ _ hnd
  · rw [clusterNameOp_eq_of_no_tag cfg d hno]
    exact hnd

theorem pyGet_clusterNameOp_ne (cfg : List (String × Val))
    (d : List (String × String)) {k : String} (h : k ≠ "--cluster-name") :
    pyGet (Provider.clusterNameOp cfg d) k = pyGet d k := by
  rcases clusterNameOp_cases cfg with ⟨v, hv, ht⟩ | hno
  · rw [clusterNameOp_eq_of_truthy cfg d hv ht, pyGet_pySet_ne _ _ h]
  · rw [clusterNameOp_eq_of_no_tag cfg d hno]

theorem clusterNameOp_idem (cfg : List (String × Val))
    (d : List (String × String)) :
    Provider.clusterNameOp cfg (Provider.clusterNameOp cfg d) =
      Provider.clusterNameOp cfg d := by
  rcases clusterNameOp_cases cfg with ⟨v, hv, ht⟩ | hno
  · rw [clusterNameOp_eq_of_truthy cfg _ hv ht,
      clusterNameOp_eq_of_truthy cfg d hv ht,
      pySet_eq_self_of_pyGet _ (pyGet_pySet_self _ _ _)]
  · rw [clusterNameOp_eq_of_no_tag cfg _ hno,
      clusterNameOp_eq_of_no_tag cfg d hno]

/-- `argsOps` applied twice equals `argsOps` applied once. -/
theorem argsOps_idem (cfg : List (String × Val))
    (d : List (String × String)) :
    Provider.argsOps cfg (Provider.argsOps cfg d) =
      Provider.argsOps cfg d := by
  unfold Provider.argsOps
  set D2 := pySet (pySet d "--allocate-node-cidrs" "false")
    "--configure-cloud-routes" "false" with hD2
  set D4 := pyPop (pyPop D2 "--cluster-cidr")
    "--route-reconciliation-period" with hD4
  set E := Provider.clusterNameOp cfg D4 with hE
  have hEa : pyGet E "--allocate-node-cidrs" = some "false" := by
    rw [hE, pyGet_clusterNameOp_ne _ _ (by decide), hD4,
      pyGet_pyPop_ne _ (by decide), pyGet_pyPop_ne _ (by decide), hD2,
      pyGet_pySet_ne _ _ (by decide), pyGet_pySet_self]
  have hEc : pyGet E "--configure-cloud-routes" = some "false" := by
    rw [hE, pyGet_clusterNameOp_ne _ _ (by decide), hD4,
      pyGet_pyPop_ne _ (by decide), pyGet_pyPop_ne _ (by decide), hD2,
      pyGet_pySet_self]
  rw [pySet_eq_self_of_pyGet _ hEa, pySet_eq_self_of_pyGet _ hEc]
  have hEo1 : pyGet E "--cluster-cidr" = Option.none := by
    rw [hE, pyGet_clusterNameOp_ne _ _ (by decide), hD4,
      pyGet_pyPop_ne _ (by decide), pyGet_pyPop_self]
  have hEo2 : pyGet (pyPop E "--cluster-cidr")
      "--route-reconciliation-period" = Option.none := by
    rw [pyGet_pyPop_ne _ (by decide), hE,
      pyGet_clusterNameOp_ne _ _ (by decide), hD4, pyGet_pyPop_self]
  rw [pyPop_eq_self_of_none _ hEo1]
  rw [show pyPop E "--route-reconciliation-period" = E from
    pyPop_eq_self_of_none _ (by
      rw [hE, pyGet_clusterNameOp_ne _ _ (by decide), hD4,
        pyGet_pyPop_self])]
  rw [hE]
  exact clusterNameOp_idem cfg D4

theorem argsOps_free (cfg : List (String × Val))
    {d : List (String × String)} (htag : clusterTagSafe cfg)
    (hfree : ∀ kv ∈ d, '=' ∉ kv.1.data ∧ '=' ∉ kv.2.data) :
    ∀ kv ∈ Provider.argsOps cfg d, '=' ∉ kv.1.data ∧ '=' ∉ kv.2.data := by
  intro kv hkv
  unfold Provider.argsOps at hkv
  rcases mem_clusterNameOp hkv with h | ⟨v, hv, ht, rfl⟩
  · have h₂ := mem_pyPop (mem_pyPop h)
    rcases mem_pySet h₂ with h₃ | h₃
    · rcases mem_pySet h₃ with h₄ | h₄
      · exact hfree kv h₄
      · subst h₄
        exact ⟨by decide, by decide⟩
    · subst h₃
      exact ⟨by decide, by decide⟩
  · refine ⟨?_, htag v hv ht⟩
    show '=' ∉ ("--cluster-name" : String).data
    decide

theorem argsOps_nodup (cfg : List (String × Val))
    {d : List (String × String)} (hnd : (d.map Prod.fst).Nodup) :
    ((Provider.argsOps cfg d).map Prod.fst).Nodup := by
  unfold Provider.argsOps
  exact clusterNameOp_keys_nodup cfg
    (pyPop_keys_nodup _ (pyPop_keys_nodup _
      (pySet_keys_nodup _ _ (pySet_keys_nodup _ _ hnd))))

/-- `_update_args`'s container rewrite is idempotent (given a cluster tag
that stringifies without `=`). -/
theorem updateArgsContainer_idem (cfg : List (String × Val))
    (htag : clusterTagSafe cfg) {c c' : Container}
    (h : Provider.updateArgsContainer cfg c = some c') :
    Provider.updateArgsContainer cfg c' = some c' := by
  unfold Provider.updateArgsContainer at h
  rcases hp : Provider.parseArgs c.args with _ | D
  · rw [hp] at h
    exact absurd h (by simp)
  · rw [hp] at h
    have h' : some ({ c with
        args := Provider.serializeArgs (Provider.argsOps cfg D) } :
        Container) = some c' := h
    injection h' with h'
    subst h'
    have hDfree : ∀ kv ∈ D, '=' ∉ kv.1.data ∧ '=' ∉ kv.2.data :=
      parseArgs_fold_free c.args [] D (by simp) hp
    have hDnd : (D.map Prod.fst).Nodup :=
      parseArgs_fold_nodup c.args [] D (by simp) hp
    have hEfree := argsOps_free cfg htag hDfree
    have hEnd := argsOps_nodup cfg hDnd
    unfold Provider.updateArgsContainer
    rw [show ({ c with
        args := Provider.serializeArgs (Provider.argsOps cfg D) } :
        Container).args =
      Provider.serializeArgs (Provider.argsOps cfg D) from rfl]
    rw [parseArgs_serialize _ hEnd hEfree]
    show some ({ c with
        args := Provider.serializeArgs
          (Provider.argsOps cfg (Provider.argsOps cfg D)) } : Container) =
      some { c with args := Provider.serializeArgs (Provider.argsOps cfg D) }
    rw [argsOps_idem]

/-! ### Toleration appending and container-list surgery -/

/-- The second run of the append-missing-tolerations loop finds nothing to
add: every configured taint key is already present. -/
theorem missingTolerations_addMissing (cfg : List (String × Val))
    (tols : List Toleration) :
    missingTolerations cfg (addMissingTolerations cfg tols) = [] := by
  rw [show missingTolerations cfg (addMissingTolerations cfg tols) =
    ((configTaints cfg).filter (fun t =>
      !((tols ++ missingTolerations cfg tols).map (·.key)).contains t.key)).map
      (fun t => Toleration.mk t.key t.value t.effect Option.none Option.none)
    from rfl]
  rw [List.filter_eq_nil_iff.mpr ?_]
  · rfl
  intro t ht
  by_cases hk : t.key ∈ tols.map (·.key)
  · have hmem : t.key ∈ (tols ++ missingTolerations cfg tols).map (·.key) := by
      rw [List.map_append]
      exact List.mem_append_left _ hk
    have hcon := List.elem_eq_true_of_mem hmem
    simp only [Bool.not_eq_true']
    rw [show ((tols ++ missingTolerations cfg tols).map (·.key)).contains
      t.key = true from hcon]
    decide
  · have hmm : Toleration.mk t.key t.value t.effect Option.none Option.none ∈
        missingTolerations cfg tols := by
      unfold missingTolerations
      refine List.mem_map.mpr ⟨t, ?_, rfl⟩
      refine List.mem_filter.mpr ⟨ht, ?_⟩
      simp [hk]
    have hmem : t.key ∈ (tols ++ missingTolerations cfg tols).map (·.key) := by
      rw [List.map_append]
      exact List.mem_append_right _ (List.mem_map.mpr ⟨_, hmm, rfl⟩)
    have hcon := List.elem_eq_true_of_mem hmem
    simp only [Bool.not_eq_true']
    rw [show ((tols ++ missingTolerations cfg tols).map (·.key)).contains
      t.key = true from hcon]
    decide

/-- Appending missing tolerations twice is the same as once. -/
theorem addMissingTolerations_idem (cfg : List (String × Val))
    (tols : List Toleration) :
    addMissingTolerations cfg (addMissingTolerations cfg tols) =
      addMissingTolerations cfg tols := by
  conv_lhs => rw [addMissingTolerations]
  rw [missingTolerations_addMissing, List.append_nil]

/-- Replacing the found container by a fixed point of the mutation leaves
the list unchanged. -/
theorem updateFirst_eq_self (cs : List Container) (nm : String)
    {c : Container} (hf : findContainer cs nm = some c)
    (f : Container → Container) (hfix : f c = c) :
    updateFirstContainer cs nm f = cs := by
  induction cs with
  | nil => rfl
  | cons c₀ rest ih =>
    by_cases h₀ : c₀.name = nm
    · have hc : c = c₀ := by
        have : findContainer (c₀ :: rest) nm = some c₀ := by
          simp [findContainer, List.find?_cons, h₀]
        rw [this] at hf
        injection hf.symm
      subst hc
      rw [updateFirstContainer, if_pos h₀, hfix]
    · have hstep : findContainer (c₀ :: rest) nm = findContainer rest nm := by
        simp [findContainer, List.find?_cons, h₀]
      rw [hstep] at hf
      rw [updateFirstContainer, if_neg h₀, ih hf]

/-- A name-preserving mutation of the found container preserves the image
sequence when it also preserves that container's image. -/
theorem updateFirst_map_image (cs : List Container) (nm : String)
    {c : Container} (hf : findContainer cs nm = some c)
    (f : Container → Container) (himg : (f c).image = c.image) :
    (updateFirstContainer cs nm f).map (·.image) = cs.map (·.image) := by
  induction cs with
  | nil => rfl
  | cons c₀ rest ih =>
    by_cases h₀ : c₀.name = nm
    · have hc : c = c₀ := by
        have : findContainer (c₀ :: rest) nm = some c₀ := by
          simp [findContainer, List.find?_cons, h₀]
        rw [this] at hf
        injection hf.symm
      subst hc
      rw [updateFirstContainer, if_pos h₀, List.map_cons, List.map_cons, himg]
    · have hstep : findContainer (c₀ :: rest) nm = findContainer rest nm := by
        simp [findContainer, List.find?_cons, h₀]
      rw [hstep] at hf
      rw [updateFirstContainer, if_neg h₀, List.map_cons, List.map_cons,
        ih hf]

/-! ### `_update_args` pod-spec idempotence -/

theorem updateArgsSpecContainers_none (cfg : List (String × Val)) (obj : Doc)
    (hf : findContainer obj.containers "cloud-controller-manager" =
      Option.none) :
    Provider.updateArgsSpecContainers cfg obj = some obj := by
  unfold Provider.updateArgsSpecContainers
  rw [hf]

theorem updateArgsSpecContainers_some (cfg : List (String × Val)) (obj : Doc)
    {c c' : Container}
    (hf : findContainer obj.containers "cloud-controller-manager" = some c)
    (hc : Provider.updateArgsContainer cfg c = some c') :
    Provider.updateArgsSpecContainers cfg obj =
      some { obj with
             containers := updateFirstContainer obj.containers
               "cloud-controller-manager" (fun _ => c') } := by
  unfold Provider.updateArgsSpecContainers
  rw [hf]
  show (Provider.updateArgsContainer cfg c).map (fun c' =>
    { obj with
      containers := updateFirstContainer obj.containers
        "cloud-controller-manager" (fun _ => c') }) = _
  rw [hc]
  rfl

theorem updateArgsSpecContainers_fail (cfg : List (String × Val)) (obj : Doc)
    {c : Container}
    (hf : findContainer obj.containers "cloud-controller-manager" = some c)
    (hc : Provider.updateArgsContainer cfg c = Option.none) :
    Provider.updateArgsSpecContainers cfg obj = Option.none := by
  unfold Provider.updateArgsSpecContainers
  rw [hf]
  show (Provider.updateArgsContainer cfg c).map (fun c' =>
    { obj with
      containers := updateFirstContainer obj.containers
        "cloud-controller-manager" (fun _ => c') }) = _
  rw [hc]
  rfl

theorem updateArgsContainer_shape (cfg : List (String × Val))
    {c c' : Container} (h : Provider.updateArgsContainer cfg c = some c') :
    c'.name = c.name ∧ c'.image = c.image ∧ c'.command = c.command := by
  unfold Provider.updateArgsContainer at h
  rcases hp : Provider.parseArgs c.args with _ | D <;> rw [hp] at h
  · exact absurd h (by simp)
  · have h' : some ({ c with
        args := Provider.serializeArgs (Provider.argsOps cfg D) } :
        Container) = some c' := h
    injection h' with h'
    subst h'
    exact ⟨rfl, rfl, rfl⟩

theorem updateArgsSpec_idem (cfg : List (String × Val))
    (htag : clusterTagSafe cfg) {x y : Doc}
    (h : Provider.updateArgsSpec cfg x = some y) :
    Provider.updateArgsSpec cfg y = some y := by
  unfold Provider.updateArgsSpec at h
  rcases hf : findContainer x.containers "cloud-controller-manager"
    with _ | c
  · rw [updateArgsSpecContainers_none cfg x hf] at h
    have h' : some ({ x with
        tolerations := addMissingTolerations cfg x.tolerations } : Doc) =
        some y := h
    injection h' with h'
    subst h'
    unfold Provider.updateArgsSpec
    have hf2 : findContainer ({ x with
        tolerations := addMissingTolerations cfg x.tolerations } :
        Doc).containers "cloud-controller-manager" = Option.none := hf
    rw [updateArgsSpecContainers_none cfg _ hf2]
    show some ({ x with
        tolerations := addMissingTolerations cfg
          (addMissingTolerations cfg x.tolerations) } : Doc) =
      some { x with tolerations := addMissingTolerations cfg x.tolerations }
    rw [addMissingTolerations_idem]
  · rcases hc : Provider.updateArgsContainer cfg c with _ | c'
    · rw [updateArgsSpecContainers_fail cfg x hf hc] at h
      exact absurd h (by simp)
    · rw [updateArgsSpecContainers_some cfg x hf hc] at h
      obtain ⟨hn, hi, hcmd⟩ := updateArgsContainer_shape cfg hc
      set CS := updateFirstContainer x.containers "cloud-controller-manager"
        (fun _ => c') with hCS
      have h' : some ({ x with
          containers := CS,
          tolerations := addMissingTolerations cfg x.tolerations } : Doc) =
          some y := h
      injection h' with h'
      subst h'
      set Y : Doc := { x with
        containers := CS,
        tolerations := addMissingTolerations cfg x.tolerations } with hY
      have hf2 : findContainer Y.containers "cloud-controller-manager" =
          some c' := by
        show findContainer CS "cloud-controller-manager" = some c'
        rw [hCS]
        exact findContainer_updateFirst x.containers
          "cloud-controller-manager" (fun _ => c') hf hn
      have hc2 : Provider.updateArgsContainer cfg c' = some c' :=
        updateArgsContainer_idem cfg htag hc
      unfold Provider.updateArgsSpec
      rw [updateArgsSpecContainers_some cfg Y hf2 hc2]
      have hup : updateFirstContainer Y.containers "cloud-controller-manager"
          (fun _ => c') = Y.containers :=
        updateFirst_eq_self _ _ hf2 _ rfl
      show some ({ Y with
          containers := updateFirstContainer Y.containers
            "cloud-controller-manager" (fun _ => c'),
          tolerations := addMissingTolerations cfg Y.tolerations } : Doc) =
        some Y
      rw [hup]
      rw [show addMissingTolerations cfg Y.tolerations = Y.tolerations from by
        rw [show Y.tolerations =
          addMissingTolerations cfg x.tolerations from rfl,
          addMissingTolerations_idem]]

theorem updateArgsSpec_preserves (cfg : List (String × Val)) {x y : Doc}
    (h : Provider.updateArgsSpec cfg x = some y) :
    y.kind = x.kind ∧ y.name = x.name ∧ y.labels = x.labels ∧
    y.stringData = x.stringData ∧
    y.selectorMatchLabels = x.selectorMatchLabels ∧
    y.replicas = x.replicas ∧ y.nodeSelector = x.nodeSelector ∧
    y.topologySpreadConstraints = x.topologySpreadConstraints ∧
    y.containers.map (·.image) = x.containers.map (·.image) := by
  unfold Provider.updateArgsSpec at h
  rcases hf : findContainer x.containers "cloud-controller-manager"
    with _ | c
  · rw [updateArgsSpecContainers_none cfg x hf] at h
    have h' : some ({ x with
        tolerations := addMissingTolerations cfg x.tolerations } : Doc) =
        some y := h
    injection h' with h'
    subst h'
    exact ⟨rfl, rfl, rfl, rfl, rfl, rfl, rfl, rfl, rfl⟩
  · rcases hc : Provider.updateArgsContainer cfg c with _ | c'
    · rw [updateArgsSpecContainers_fail cfg x hf hc] at h
      exact absurd h (by simp)
    · rw [updateArgsSpecContainers_some cfg x hf hc] at h
      obtain ⟨hn, hi, hcmd⟩ := updateArgsContainer_shape cfg hc
      have h' : some ({ x with
          containers := updateFirstContainer x.containers
            "cloud-controller-manager" (fun _ => c'),
          tolerations := addMissingTolerations cfg x.tolerations } : Doc) =
          some y := h
      injection h' with h'
      subst h'
      refine ⟨rfl, rfl, rfl, rfl, rfl, rfl, rfl, rfl, ?_⟩
      show (updateFirstContainer x.containers "cloud-controller-manager"
        (fun _ => c')).map (·.image) = x.containers.map (·.image)
      exact updateFirst_map_image x.containers "cloud-controller-manager"
        hf (fun _ => c') hi

/-! ### Controller patches: reduction, preservation, idempotence -/

/-- A kind/name mismatch falsifies the shared Patch guard. -/
theorem mismatch_cond (K N : String) (x : Doc)
    (h : ¬(x.kind = K ∧ x.name = N)) :
    (x.kind == K && x.name == N) = false := by
  by_cases h1 : x.kind = K
  · have h2 : x.name ≠ N := fun h2 => h ⟨h1, h2⟩
    simp [h2]
  · simp [h1]

theorem updateControllerPod_mismatch (cfg : List (String × Val)) (x : Doc)
    (h : ¬(x.kind = "Pod" ∧ x.name = "cloud-controller-manager")) :
    Provider.updateControllerPod cfg x = some x := by
  unfold Provider.updateControllerPod
  rw [if_pos (by simp [mismatch_cond "Pod" "cloud-controller-manager" x h])]

theorem updateControllerPod_match (cfg : List (String × Val)) (x : Doc)
    (hk : x.kind = "Pod") (hn : x.name = "cloud-controller-manager") :
    Provider.updateControllerPod cfg x = Provider.updateArgsSpec cfg x := by
  unfold Provider.updateControllerPod
  rw [if_neg (by simp [hk, hn])]

theorem updateControllerPod_preserves (cfg : List (String × Val)) {x y : Doc}
    (h : Provider.updateControllerPod cfg x = some y) :
    y.kind = x.kind ∧ y.name = x.name ∧ y.labels = x.labels ∧
    y.stringData = x.stringData ∧
    y.containers.map (·.image) = x.containers.map (·.image) := by
  by_cases hm : x.kind = "Pod" ∧ x.name = "cloud-controller-manager"
  · rw [updateControllerPod_match cfg x hm.1 hm.2] at h
    obtain ⟨hk, hn, hl, hsd, _, _, _, _, hi⟩ := updateArgsSpec_preserves cfg h
    exact ⟨hk, hn, hl, hsd, hi⟩
  · rw [updateControllerPod_mismatch cfg x hm] at h
    injection h with h
    subst h
    exact ⟨rfl, rfl, rfl, rfl, rfl⟩

theorem updateControllerPod_idem (cfg : List (String × Val))
    (htag : clusterTagSafe cfg) {x y : Doc}
    (h : Provider.updateControllerPod cfg x = some y) :
    Provider.updateControllerPod cfg y = some y := by
  by_cases hm : x.kind = "Pod" ∧ x.name = "cloud-controller-manager"
  · rw [updateControllerPod_match cfg x hm.1 hm.2] at h
    obtain ⟨hk, hn, _⟩ := updateArgsSpec_preserves cfg h
    rw [updateControllerPod_match cfg y (hk.trans hm.1) (hn.trans hm.2)]
    exact updateArgsSpec_idem cfg htag h
  · rw [updateControllerPod_mismatch cfg x hm] at h
    injection h with h
    subst h
    exact updateControllerPod_mismatch cfg x hm

/-- The replicas-override stage either keeps the document or overrides only
its replica count. -/
theorem replicasStage_cases (cfg : List (String × Val)) (obj : Doc) :
    replicasStage cfg obj = obj ∨
    ∃ n : Int, replicasStage cfg obj = { obj with replicas := some n } := by
  unfold replicasStage
  rcases hr : pyGet cfg "replicas" with _ | v
  · exact Or.inl rfl
  · cases v with
    | int n =>
      by_cases hc : (n != 0 && obj.replicas != some n) = true
      · refine Or.inr ⟨n, ?_⟩
        show (if (n != 0 && obj.replicas != some n) = true then
          ({ obj with replicas := some n } : Doc) else obj) =
          { obj with replicas := some n }
        rw [if_pos hc]
      · refine Or.inl ?_
        show (if (n != 0 && obj.replicas != some n) = true then
          ({ obj with replicas := some n } : Doc) else obj) = obj
        rw [if_neg hc]
    | none => exact Or.inl rfl
    | str s => exact Or.inl rfl
    | bool b => exact Or.inl rfl
    | num l => exact Or.inl rfl
    | smap m => exact Or.inl rfl
    | taints t => exact Or.inl rfl

/-- The replicas-override stage changes at most the replica count. -/
theorem replicasStage_preserves (cfg : List (String × Val)) (obj : Doc) :
    (replicasStage cfg obj).kind = obj.kind ∧
    (replicasStage cfg obj).name = obj.name ∧
    (replicasStage cfg obj).labels = obj.labels ∧
    (replicasStage cfg obj).stringData = obj.stringData ∧
    (replicasStage cfg obj).selectorMatchLabels = obj.selectorMatchLabels ∧
    (replicasStage cfg obj).nodeSelector = obj.nodeSelector ∧
    (replicasStage cfg obj).tolerations = obj.tolerations ∧
    (replicasStage cfg obj).containers = obj.containers := by
  rcases replicasStage_cases cfg obj with h | ⟨n, h⟩ <;> rw [h] <;>
    exact ⟨rfl, rfl, rfl, rfl, rfl, rfl, rfl, rfl⟩

/-- The replicas-equation of `replicasStage`, with the stuck `match`
unfolded on a known integer lookup. -/
theorem replicasStage_eq_int (cfg : List (String × Val)) (obj : Doc)
    {n : Int} (hr : pyGet cfg "replicas" = some (Val.int n)) :
    replicasStage cfg obj =
      if (n != 0 && obj.replicas != some n) = true then
        { obj with replicas := some n } else obj := by
  unfold replicasStage
  rw [hr]

/-- The wildcard equation of `replicasStage`. -/
theorem replicasStage_eq_other (cfg : List (String × Val)) (obj : Doc)
    (hr : ∀ n : Int, pyGet cfg "replicas" ≠ some (Val.int n)) :
    replicasStage cfg obj = obj := by
  unfold replicasStage
  rcases hv : pyGet cfg "replicas" with _ | v
  · rfl
  · cases v with
    | int n => exact absurd hv (hr n)
    | none => rfl
    | str s => rfl
    | bool b => rfl
    | num l => rfl
    | smap m => rfl
    | taints t => rfl

/-- A document whose replica count already equals a `replicasStage` output
(for the same configuration) is untouched by the stage. -/
theorem replicasStage_fix (cfg : List (String × Val)) (obj y : Doc)
    (h : y.replicas = (replicasStage cfg obj).replicas) :
    replicasStage cfg y = y := by
  rcases hr : pyGet cfg "replicas" with _ | v
  · refine replicasStage_eq_other cfg y (fun n hn => ?_)
    rw [hr] at hn
    exact Option.noConfusion hn
  · cases v with
    | int n =>
      rw [replicasStage_eq_int cfg obj hr] at h
      rw [replicasStage_eq_int cfg y hr]
      by_cases hn : n = 0
      · rw [if_neg (by simp [hn])]
      · have hb : (n != 0) = true := by simpa [bne_iff_ne] using hn
        have hy : y.replicas = some n := by
          by_cases ho : (obj.replicas != some n) = true
          · rw [if_pos (by rw [hb, ho]; rfl)] at h
            exact h
          · have ho' : obj.replicas = some n := by
              have h₂ := ho
              simp only [bne_iff_ne, ne_eq, Decidable.not_not] at h₂
              exact h₂
            rw [if_neg (by simp [ho'])] at h
            exact h.trans ho'
        rw [if_neg (by simp [hy])]
    | none =>
      refine replicasStage_eq_other cfg y (fun n hn => ?_)
      rw [hr] at hn
      exact Val.noConfusion (Option.some.inj hn)
    | str s =>
      refine replicasStage_eq_other cfg y (fun n hn => ?_)
      rw [hr] at hn
      exact Val.noConfusion (Option.some.inj hn)
    | bool b =>
      refine replicasStage_eq_other cfg y (fun n hn => ?_)
      rw [hr] at hn
      exact Val.noConfusion (Option.some.inj hn)
    | num l =>
      refine replicasStage_eq_other cfg y (fun n hn => ?_)
      rw [hr] at hn
      exact Val.noConfusion (Option.some.inj hn)
    | smap m =>
      refine replicasStage_eq_other cfg y (fun n hn => ?_)
      rw [hr] at hn
      exact Val.noConfusion (Option.some.inj hn)
    | taints t =>
      refine replicasStage_eq_other cfg y (fun n hn => ?_)
      rw [hr] at hn
      exact Val.noConfusion (Option.some.inj hn)

theorem updateControllerDeployment_mismatch (cfg : List (String × Val))
    (x : Doc)
    (h : ¬(x.kind = "Deployment" ∧ x.name = "cloud-controller-manager")) :
    Provider.updateControllerDeployment cfg x = some x := by
  unfold Provider.updateControllerDeployment
  rw [if_pos (by
    simp [mismatch_cond "Deployment" "cloud-controller-manager" x h])]

/-- With no dict-valued `control-node-selector` the provider controller
patch returns its document unchanged. -/
theorem updateControllerDeployment_no_ns (cfg : List (String × Val))
    (x : Doc)
    (hns : ∀ m, pyGet cfg "control-node-selector" ≠ some (Val.smap m)) :
    Provider.updateControllerDeployment cfg x = some x := by
  unfold Provider.updateControllerDeployment
  by_cases hcond :
      (x.kind == "Deployment" && x.name == "cloud-controller-manager") = true
  · rw [if_neg (by simp [hcond])]
    rcases hv : pyGet cfg "control-node-selector" with _ | v
    · rfl
    · cases v with
      | smap m => exact absurd hv (hns m)
      | none => rfl
      | str s => rfl
      | int n => rfl
      | bool b => rfl
      | num l => rfl
      | taints t => rfl
  · rw [if_pos (by simp [eq_false_of_ne_true hcond])]

/-- Reduction of the provider controller patch on a matching Deployment with
a dict-valued `control-node-selector`. -/
theorem updateControllerDeployment_smap (cfg : List (String × Val)) (x : Doc)
    {ns : List (String × String)}
    (hcond :
      (x.kind == "Deployment" && x.name == "cloud-controller-manager") = true)
    (hns : pyGet cfg "control-node-selector" = some (Val.smap ns)) :
    Provider.updateControllerDeployment cfg x =
      Provider.updateArgsSpec cfg
        { replicasStage cfg { x with nodeSelector := some ns } with
          topologySpreadConstraints :=
            [⟨1, "kubernetes.io/hostname", "DoNotSchedule",
              (replicasStage cfg
                { x with nodeSelector := some ns }).selectorMatchLabels⟩] } := by
  unfold Provider.updateControllerDeployment
  rw [if_neg (by simp [hcond]), hns]
  rfl

theorem updateControllerDeployment_preserves (cfg : List (String × Val))
    {x y : Doc} (h : Provider.updateControllerDeployment cfg x = some y) :
    y.kind = x.kind ∧ y.name = x.name ∧ y.labels = x.labels ∧
    y.stringData = x.stringData ∧
    y.containers.map (·.image) = x.containers.map (·.image) := by
  by_cases hsm : ∃ m, pyGet cfg "control-node-selector" = some (Val.smap m)
  · obtain ⟨ns, hns⟩ := hsm
    by_cases hm : x.kind = "Deployment" ∧ x.name = "cloud-controller-manager"
    · have hcond : (x.kind == "Deployment" &&
          x.name == "cloud-controller-manager") = true := by
        simp [hm.1, hm.2]
      rw [updateControllerDeployment_smap cfg x hcond hns] at h
      obtain ⟨hk, hn, hl, hsd, hsml, hrep, hnsel, htsc, hi⟩ :=
        updateArgsSpec_preserves cfg h
      obtain ⟨Rk, Rn, Rl, Rsd, Rsml, Rns, Rtol, Rcont⟩ :=
        replicasStage_preserves cfg { x with nodeSelector := some ns }
      refine ⟨hk.trans Rk, hn.trans Rn, hl.trans Rl, hsd.trans Rsd, ?_⟩
      exact hi.trans (congrArg (List.map (·.image)) Rcont)
    · rw [updateControllerDeployment_mismatch cfg x hm] at h
      injection h with h
      subst h
      exact ⟨rfl, rfl, rfl, rfl, rfl⟩
  · have hns' : ∀ m, pyGet cfg "control-node-selector" ≠ some (Val.smap m) :=
      fun m hm => hsm ⟨m, hm⟩
    rw [updateControllerDeployment_no_ns cfg x hns'] at h
    injection h with h
    subst h
    exact ⟨rfl, rfl, rfl, rfl, rfl⟩

theorem updateControllerDeployment_idem (cfg : List (String × Val))
    (htag : clusterTagSafe cfg) {x y : Doc}
    (h : Provider.updateControllerDeployment cfg x = some y) :
    Provider.updateControllerDeployment cfg y = some y := by
  by_cases hsm : ∃ m, pyGet cfg "control-node-selector" = some (Val.smap m)
  · obtain ⟨ns, hns⟩ := hsm
    by_cases hm : x.kind = "Deployment" ∧ x.name = "cloud-controller-manager"
    · have hcond : (x.kind == "Deployment" &&
          x.name == "cloud-controller-manager") = true := by
        simp [hm.1, hm.2]
      rw [updateControllerDeployment_smap cfg x hcond hns] at h
      obtain ⟨hk, hn, hl, hsd, hsml, hrep, hnsel, htsc, hi⟩ :=
        updateArgsSpec_preserves cfg h
      obtain ⟨Rk, Rn, Rl, Rsd, Rsml, Rns, Rtol, Rcont⟩ :=
        replicasStage_preserves cfg { x with nodeSelector := some ns }
      have hycond : (y.kind == "Deployment" &&
          y.name == "cloud-controller-manager") = true := by
        rw [hk.trans Rk, hn.trans Rn]
        exact hcond
      rw [updateControllerDeployment_smap cfg y hycond hns]
      have hyns : y.nodeSelector = some ns := hnsel.trans Rns
      have hyE : ({ y with nodeSelector := some ns } : Doc) = y := by
        conv_lhs => rw [← hyns]
      rw [hyE]
      have hyrepl : y.replicas =
          (replicasStage cfg { x with nodeSelector := some ns }).replicas :=
        hrep
      rw [replicasStage_fix cfg { x with nodeSelector := some ns } y hyrepl]
      have hRsml : (replicasStage cfg
          { x with nodeSelector := some ns }).selectorMatchLabels =
          x.selectorMatchLabels := Rsml
      have hysml : y.selectorMatchLabels = x.selectorMatchLabels :=
        hsml.trans hRsml
      have h1 : y.topologySpreadConstraints =
          [⟨1, "kubernetes.io/hostname", "DoNotSchedule",
            (replicasStage cfg
              { x with nodeSelector := some ns }).selectorMatchLabels⟩] := htsc
      have hytsc : ([⟨1, "kubernetes.io/hostname", "DoNotSchedule",
          y.selectorMatchLabels⟩] : List TopologySpreadConstraint) =
          y.topologySpreadConstraints := by
        rw [h1, hRsml, hysml]
      rw [hytsc]
      exact updateArgsSpec_idem cfg htag h
    · rw [updateControllerDeployment_mismatch cfg x hm] at h
      injection h with h
      subst h
      exact updateControllerDeployment_mismatch cfg x hm
  · have hns' : ∀ m, pyGet cfg "control-node-selector" ≠ some (Val.smap m) :=
      fun m hm => hsm ⟨m, hm⟩
    rw [updateControllerDeployment_no_ns cfg x hns'] at h
    injection h with h
    subst h
    exact updateControllerDeployment_no_ns cfg x hns'

/-! ### `UpdateNode` (provider) idempotence -/

theorem setLast_setLast {α : Type} (x : α) (l : List α) :
    setLast x (setLast x l) = setLast x l := by
  cases l with
  | nil => rfl
  | cons a t =>
    rw [setLast_eq x (a :: t) (by simp)]
    rw [setLast_eq x ((a :: t).dropLast ++ [x]) (by simp)]
    rw [List.dropLast_concat]

theorem updateNodeCommand_none (obj : Doc)
    (hf : findContainer obj.containers "cloud-node-manager" = Option.none) :
    Provider.updateNodeCommand obj = some obj := by
  unfold Provider.updateNodeCommand
  rw [hf]

theorem updateNodeCommand_none_last (obj : Doc) (c : Container)
    (hf : findContainer obj.containers "cloud-node-manager" = some c)
    (hlast : c.command.getLast? = Option.none) :
    Provider.updateNodeCommand obj = Option.none := by
  unfold Provider.updateNodeCommand
  rw [hf]
  show (match c.command.getLast? with
    | Option.none => Option.none
    | some lastCmd =>
      if strContains lastCmd "--wait-routes" then
        some { obj with
               containers := updateFirstContainer obj.containers
                 "cloud-node-manager"
                 (fun c =>
                   { c with command := setLast "--wait-routes=false" c.command }) }
      else Option.none) = _
  rw [hlast]

theorem updateNode_mismatch (cfg : List (String × Val)) (x : Doc)
    (h : ¬(x.kind = "DaemonSet" ∧ x.name = "cloud-node-manager")) :
    Provider.updateNode cfg x = some x := by
  unfold Provider.updateNode
  rw [if_pos (by simp [mismatch_cond "DaemonSet" "cloud-node-manager" x h])]

theorem updateNode_match (cfg : List (String × Val)) (x : Doc)
    (hk : x.kind = "DaemonSet") (hn : x.name = "cloud-node-manager") :
    Provider.updateNode cfg x =
      Provider.updateNodeCommand
        { x with tolerations := addMissingTolerations cfg x.tolerations } := by
  unfold Provider.updateNode
  rw [if_neg (by simp [hk, hn])]

theorem updateNodeCommand_preserves {x y : Doc}
    (h : Provider.updateNodeCommand x = some y) :
    y.kind = x.kind ∧ y.name = x.name ∧ y.labels = x.labels ∧
    y.stringData = x.stringData ∧ y.tolerations = x.tolerations ∧
    y.containers.map (·.image) = x.containers.map (·.image) := by
  rcases hf : findContainer x.containers "cloud-node-manager" with _ | c
  · rw [updateNodeCommand_none x hf] at h
    injection h with h
    subst h
    exact ⟨rfl, rfl, rfl, rfl, rfl, rfl⟩
  · rcases hlast : c.command.getLast? with _ | lastCmd
    · rw [updateNodeCommand_none_last x c hf hlast] at h
      exact absurd h (by simp)
    · rw [updateNodeCommand_spec x c lastCmd hf hlast] at h
      by_cases hwr : strContains lastCmd "--wait-routes" = true
      · rw [if_pos hwr] at h
        injection h with h
        subst h
        refine ⟨rfl, rfl, rfl, rfl, rfl, ?_⟩
        show (updateFirstContainer x.containers "cloud-node-manager"
          (fun c =>
            { c with
              command := setLast "--wait-routes=false" c.command })).map
          (·.image) = x.containers.map (·.image)
        exact updateFirst_map_image x.containers "cloud-node-manager" hf _ rfl
      · rw [if_neg hwr] at h
        exact absurd h (by simp)

theorem updateNode_preserves (cfg : List (String × Val)) {x y : Doc}
    (h : Provider.updateNode cfg x = some y) :
    y.kind = x.kind ∧ y.name = x.name ∧ y.labels = x.labels ∧
    y.stringData = x.stringData ∧
    y.containers.map (·.image) = x.containers.map (·.image) := by
  by_cases hm : x.kind = "DaemonSet" ∧ x.name = "cloud-node-manager"
  · rw [updateNode_match cfg x hm.1 hm.2] at h
    obtain ⟨hk, hn, hl, hsd, htol, hi⟩ := updateNodeCommand_preserves h
    exact ⟨hk, hn, hl, hsd, hi⟩
  · rw [updateNode_mismatch cfg x hm] at h
    injection h with h
    subst h
    exact ⟨rfl, rfl, rfl, rfl, rfl⟩

theorem updateNode_idem (cfg : List (String × Val)) {x y : Doc}
    (h : Provider.updateNode cfg x = some y) :
    Provider.updateNode cfg y = some y := by
  by_cases hm : x.kind = "DaemonSet" ∧ x.name = "cloud-node-manager"
  · rw [updateNode_match cfg x hm.1 hm.2] at h
    set X : Doc :=
      { x with tolerations := addMissingTolerations cfg x.tolerations }
      with hX
    rcases hf : findContainer X.containers "cloud-node-manager" with _ | c
    · rw [updateNodeCommand_none X hf] at h
      injection h with h
      subst h
      rw [updateNode_match cfg X (show X.kind = "DaemonSet" from hm.1)
        (show X.name = "cloud-node-manager" from hm.2)]
      have h1 : addMissingTolerations cfg X.tolerations = X.tolerations := by
        show addMissingTolerations cfg
          (addMissingTolerations cfg x.tolerations) =
          addMissingTolerations cfg x.tolerations
        exact addMissingTolerations_idem cfg x.tolerations
      have hE : ({ X with
          tolerations := addMissingTolerations cfg X.tolerations } : Doc) =
          X := by
        rw [h1]
      rw [hE]
      exact updateNodeCommand_none X hf
    · rcases hlast : c.command.getLast? with _ | lastCmd
      · rw [updateNodeCommand_none_last X c hf hlast] at h
        exact absurd h (by simp)
      · rw [updateNodeCommand_spec X c lastCmd hf hlast] at h
        by_cases hwr : strContains lastCmd "--wait-routes" = true
        · rw [if_pos hwr] at h
          injection h with h
          subst h
          set f : Container → Container := fun c =>
            { c with command := setLast "--wait-routes=false" c.command }
            with hfdef
          set Y : Doc :=
            { X with
              containers := updateFirstContainer X.containers
                "cloud-node-manager" f }
            with hY
          rw [updateNode_match cfg Y (show Y.kind = "DaemonSet" from hm.1)
            (show Y.name = "cloud-node-manager" from hm.2)]
          have h1 : addMissingTolerations cfg Y.tolerations =
              Y.tolerations := by
            show addMissingTolerations cfg
              (addMissingTolerations cfg x.tolerations) =
              addMissingTolerations cfg x.tolerations
            exact addMissingTolerations_idem cfg x.tolerations
          have hE : ({ Y with
              tolerations := addMissingTolerations cfg Y.tolerations } :
              Doc) = Y := by
            rw [h1]
          rw [hE]
          have hfind : findContainer Y.containers "cloud-node-manager" =
              some (f c) := by
            show findContainer (updateFirstContainer X.containers
              "cloud-node-manager" f) "cloud-node-manager" = some (f c)
            exact findContainer_updateFirst X.containers
              "cloud-node-manager" f hf rfl
          have hne : c.command ≠ [] := by
            intro hnil
            rw [hnil] at hlast
            exact Option.noConfusion hlast
          have hflast : (f c).command.getLast? =
              some "--wait-routes=false" := by
            show (setLast "--wait-routes=false" c.command).getLast? =
              some "--wait-routes=false"
            rw [setLast_eq _ _ hne, List.getLast?_concat]
          rw [updateNodeCommand_spec Y (f c) "--wait-routes=false" hfind
            hflast]
          rw [if_pos (by decide :
            strContains "--wait-routes=false" "--wait-routes" = true)]
          have hup : updateFirstContainer Y.containers "cloud-node-manager"
              f = Y.containers := by
            refine updateFirst_eq_self Y.containers "cloud-node-manager"
              hfind f ?_
            show ({ f c with
              command := setLast "--wait-routes=false" (f c).command } :
              Container) = f c
            have h2 : setLast "--wait-routes=false" ((f c).command) =
                (f c).command := by
              show setLast "--wait-routes=false"
                (setLast "--wait-routes=false" c.command) =
                setLast "--wait-routes=false" c.command
              exact setLast_setLast _ _
            rw [h2]
          rw [hup]
        · rw [if_neg hwr] at h
          exact absurd h (by simp)
  · rw [updateNode_mismatch cfg x hm] at h
    injection h with h
    subst h
    exact updateNode_mismatch cfg x hm

/-! ### Pipeline composition -/

/-- `ConfigRegistry` touches only container images. -/
theorem configRegistry_shape (cfg : List (String × Val)) (z : Doc) :
    (configRegistry cfg z).kind = z.kind ∧
    (configRegistry cfg z).name = z.name ∧
    (configRegistry cfg z).labels = z.labels ∧
    (configRegistry cfg z).stringData = z.stringData := by
  unfold configRegistry
  rcases hv : pyGet cfg "image-registry" with _ | v
  · exact ⟨rfl, rfl, rfl, rfl⟩
  · cases v with
    | str r =>
      show (registryRewrite r z).kind = z.kind ∧
        (registryRewrite r z).name = z.name ∧
        (registryRewrite r z).labels = z.labels ∧
        (registryRewrite r z).stringData = z.stringData
      unfold registryRewrite
      by_cases hr : (r != "") = true
      · rw [if_pos hr]
        exact ⟨rfl, rfl, rfl, rfl⟩
      · rw [if_neg hr]
        exact ⟨rfl, rfl, rfl, rfl⟩
    | none => exact ⟨rfl, rfl, rfl, rfl⟩
    | int n => exact ⟨rfl, rfl, rfl, rfl⟩
    | bool b => exact ⟨rfl, rfl, rfl, rfl⟩
    | num l => exact ⟨rfl, rfl, rfl, rfl⟩
    | smap m => exact ⟨rfl, rfl, rfl, rfl⟩
    | taints t => exact ⟨rfl, rfl, rfl, rfl⟩

/-- A failed kind/name guard transfers along kind/name-preserving patches. -/
theorem mismatch_transfer {K N : String} {w d : Doc}
    (hk : d.kind = w.kind) (hn : d.name = w.name)
    (hg : ¬(w.kind = K ∧ w.name = N)) : ¬(d.kind = K ∧ d.name = N) :=
  fun hc => hg ⟨hk.symm.trans hc.1, hn.symm.trans hc.2⟩

/-- A known kind different from the guarded kind falsifies the guard. -/
theorem kind_clash {K1 K2 N : String} {d : Doc} (h1 : d.kind = K1)
    (hne : K1 ≠ K2) : ¬(d.kind = K2 ∧ d.name = N) :=
  fun hc => hne (h1.symm.trans hc.1)

/-- A document fixed by the label and registry transforms and by all four
provider patches is a fixed point of the provider pipeline. -/
theorem providerPipeline_fix (app : String) (cfg : List (String × Val))
    (y : Doc)
    (hLy : manifestLabel app "cloud-provider-azure" y = y)
    (hRy : configRegistry cfg y = y)
    (hsec : Provider.updateSecret cfg y = some y)
    (hpod : Provider.updateControllerPod cfg y = some y)
    (hdep : Provider.updateControllerDeployment cfg y = some y)
    (hnode : Provider.updateNode cfg y = some y) :
    providerPipeline app cfg y = some y := by
  show (Provider.updateSecret cfg
      (configRegistry cfg (manifestLabel app "cloud-provider-azure" y))).bind
    (fun obj => (Provider.updateControllerPod cfg obj).bind
      (fun obj => (Provider.updateControllerDeployment cfg obj).bind
        (fun obj => Provider.updateNode cfg obj))) = some y
  rw [hLy, hRy, hsec]
  show (Provider.updateControllerPod cfg y).bind
    (fun obj => (Provider.updateControllerDeployment cfg obj).bind
      (fun obj => Provider.updateNode cfg obj)) = some y
  rw [hpod]
  show (Provider.updateControllerDeployment cfg y).bind
    (fun obj => Provider.updateNode cfg obj) = some y
  rw [hdep]
  show Provider.updateNode cfg y = some y
  exact hnode

/-- C6 counterexample: the disk pipeline is not idempotent.  On a
`csi-azuredisk-controller` Deployment whose pod spec carries the stock
`node-role.kubernetes.io/control-plane` toleration and with a configured
`control-node-selector` of `{juju-application: kcp}`, the first application
rewrites the toleration list to the selector-derived tolerations (whose keys
no longer contain `"control-plane"`), so the second application's
`_adjuster` finds no matching toleration and replaces the list with `[]`:
applying the pipeline twice differs from applying it once. -/
theorem disk_adjuster_counterexample :
    (diskPipeline "azure-cloud-provider"
        [("control-node-selector", Val.smap [("juju-application", "kcp")])]
        ⟨"Deployment", "csi-azuredisk-controller", [], Option.none, [],
          Option.none,
          [⟨"node-role.kubernetes.io/control-plane", Option.none,
            some "NoSchedule", some "Exists", Option.none⟩],
          [], [], []⟩).bind
      (diskPipeline "azure-cloud-provider"
        [("control-node-selector", Val.smap [("juju-application", "kcp")])]) ≠
    diskPipeline "azure-cloud-provider"
      [("control-node-selector", Val.smap [("juju-application", "kcp")])]
      ⟨"Deployment", "csi-azuredisk-controller", [], Option.none, [],
        Option.none,
        [⟨"node-role.kubernetes.io/control-plane", Option.none,
          some "NoSchedule", some "Exists", Option.none⟩],
        [], [], []⟩ := by
  decide

/-- C6 (amended): the *provider* Transform pipeline is idempotent — for a
configuration snapshot with unique keys whose truthy `cluster-tag` (if any)
stringifies without `=`, any document produced by one pass through
`ManifestLabel`, `ConfigRegistry`, `UpdateSecret`, `UpdateControllerPod`,
`UpdateControllerDeployment`, `UpdateNode` is a fixed point of a second
pass.  The disk pipeline's controller patch violates the Patch-idempotence
invariant (see the counterexample). -/
theorem provider_pipeline_idempotent (app : String)
    (cfg : List (String × Val)) (hnd : (cfg.map Prod.fst).Nodup)
    (htag : clusterTagSafe cfg) {x y : Doc}
    (h : providerPipeline app cfg x = some y) :
    providerPipeline app cfg y = some y := by
  have h' : (Provider.updateSecret cfg
      (configRegistry cfg (manifestLabel app "cloud-provider-azure" x))).bind
    (fun obj => (Provider.updateControllerPod cfg obj).bind
      (fun obj => (Provider.updateControllerDeployment cfg obj).bind
        (fun obj => Provider.updateNode cfg obj))) = some y := h
  set x' := configRegistry cfg (manifestLabel app "cloud-provider-azure" x)
    with hx'
  rcases Option.bind_eq_some.mp h' with ⟨a, ha, hb'⟩
  rcases Option.bind_eq_some.mp hb' with ⟨b, hb, hc'⟩
  rcases Option.bind_eq_some.mp hc' with ⟨c, hc, h4⟩
  obtain ⟨ak, an, al, acont, _, _, _, _, _⟩ := updateSecret_preserves cfg ha
  obtain ⟨bk, bn, bl, bs, bi⟩ := updateControllerPod_preserves cfg hb
  obtain ⟨ck, cn, cl, cs, ci⟩ := updateControllerDeployment_preserves cfg hc
  obtain ⟨yk, yn, yl, ys, yi⟩ := updateNode_preserves cfg h4
  have hyk : y.kind = x'.kind := ((yk.trans ck).trans bk).trans ak
  have hyn : y.name = x'.name := ((yn.trans cn).trans bn).trans an
  have hyl : y.labels = x'.labels := ((yl.trans cl).trans bl).trans al
  have hyi : y.containers.map (·.image) = x'.containers.map (·.image) :=
    ((yi.trans ci).trans bi).trans (congrArg (List.map (·.image)) acont)
  have hLy : manifestLabel app "cloud-provider-azure" y = y := by
    have hll := manifestLabel_labels app "cloud-provider-azure" x
    have hxl : x'.labels =
        (manifestLabel app "cloud-provider-azure" x).labels :=
      (configRegistry_shape cfg (manifestLabel app "cloud-provider-azure" x)).2.2.1
    refine manifestLabel_fixes app "cloud-provider-azure" y ?_ ?_
    · rw [hyl, hxl]
      exact hll.1
    · rw [hyl, hxl]
      exact hll.2
  have hRy : configRegistry cfg y = y := by
    refine configRegistry_fixes cfg y (fun r hvr hrne cc hcc => ?_)
    have hmem : cc.image ∈ y.containers.map (·.image) :=
      List.mem_map.mpr ⟨cc, hcc, rfl⟩
    rw [hyi] at hmem
    obtain ⟨c₀, hc₀, heq⟩ := List.mem_map.mp hmem
    rw [← heq]
    exact configRegistry_output_fixed cfg
      (manifestLabel app "cloud-provider-azure" x) r hvr hrne c₀ hc₀
  have hfour : Provider.updateSecret cfg y = some y ∧
      Provider.updateControllerPod cfg y = some y ∧
      Provider.updateControllerDeployment cfg y = some y ∧
      Provider.updateNode cfg y = some y := by
    by_cases hg1 : x'.kind = "Secret" ∧ x'.name = Provider.SECRET_NAME
    · have hbm : ¬(a.kind = "Pod" ∧ a.name = "cloud-controller-manager") :=
        kind_clash (ak.trans hg1.1) (by decide)
      have hba : b = a := by
        rw [updateControllerPod_mismatch cfg a hbm] at hb
        exact (Option.some.inj hb).symm
      have hcm : ¬(b.kind = "Deployment" ∧
          b.name = "cloud-controller-manager") :=
        kind_clash ((bk.trans ak).trans hg1.1) (by decide)
      have hcb : c = b := by
        rw [updateControllerDeployment_mismatch cfg b hcm] at hc
        exact (Option.some.inj hc).symm
      have hnm : ¬(c.kind = "DaemonSet" ∧ c.name = "cloud-node-manager") :=
        kind_clash (((ck.trans bk).trans ak).trans hg1.1) (by decide)
      have hyc : y = c := by
        rw [updateNode_mismatch cfg c hnm] at h4
        exact (Option.some.inj h4).symm
      have hya : y = a := (hyc.trans hcb).trans hba
      have hyko : y.kind = "Secret" := hyk.trans hg1.1
      refine ⟨?_, ?_, ?_, ?_⟩
      · rw [hya]
        exact updateSecret_idem cfg hnd ha
      · exact updateControllerPod_mismatch cfg y (kind_clash hyko (by decide))
      · exact updateControllerDeployment_mismatch cfg y
          (kind_clash hyko (by decide))
      · exact updateNode_mismatch cfg y (kind_clash hyko (by decide))
    · by_cases hg2 : x'.kind = "Pod" ∧ x'.name = "cloud-controller-manager"
      · have hax : a = x' := by
          rw [updateSecret_mismatch cfg x' hg1] at ha
          exact (Option.some.inj ha).symm
        have hbx : Provider.updateControllerPod cfg x' = some b := by
          rw [← hax]
          exact hb
        have hbk2 : b.kind = "Pod" :=
          (bk.trans (congrArg Doc.kind hax)).trans hg2.1
        have hcb : c = b := by
          rw [updateControllerDeployment_mismatch cfg b
            (kind_clash hbk2 (by decide))] at hc
          exact (Option.some.inj hc).symm
        have hck2 : c.kind = "Pod" := ck.trans hbk2
        have hyc : y = c := by
          rw [updateNode_mismatch cfg c (kind_clash hck2 (by decide))] at h4
          exact (Option.some.inj h4).symm
        have hyb : y = b := hyc.trans hcb
        have hyko : y.kind = "Pod" := hyk.trans hg2.1
        refine ⟨?_, ?_, ?_, ?_⟩
        · exact updateSecret_mismatch cfg y (kind_clash hyko (by decide))
        · rw [hyb]
          exact updateControllerPod_idem cfg htag hbx
        · exact updateControllerDeployment_mismatch cfg y
            (kind_clash hyko (by decide))
        · exact updateNode_mismatch cfg y (kind_clash hyko (by decide))
      · by_cases hg3 : x'.kind = "Deployment" ∧
            x'.name = "cloud-controller-manager"
        · have hax : a = x' := by
            rw [updateSecret_mismatch cfg x' hg1] at ha
            exact (Option.some.inj ha).symm
          have hb2 : Provider.updateControllerPod cfg x' = some b := by
            rw [← hax]
            exact hb
          have hbx : b = x' := by
            rw [updateControllerPod_mismatch cfg x' hg2] at hb2
            exact (Option.some.inj hb2).symm
          have hcx : Provider.updateControllerDeployment cfg x' = some c := by
            rw [← hbx]
            exact hc
          have hck3 : c.kind = "Deployment" :=
            ck.trans ((congrArg Doc.kind hbx).trans hg3.1)
          have hyc : y = c := by
            rw [updateNode_mismatch cfg c (kind_clash hck3 (by decide))] at h4
            exact (Option.some.inj h4).symm
          have hyko : y.kind = "Deployment" := hyk.trans hg3.1
          refine ⟨?_, ?_, ?_, ?_⟩
          · exact updateSecret_mismatch cfg y (kind_clash hyko (by decide))
          · exact updateControllerPod_mismatch cfg y
              (kind_clash hyko (by decide))
          · rw [hyc]
            exact updateControllerDeployment_idem cfg htag hcx
          · exact updateNode_mismatch cfg y (kind_clash hyko (by decide))
        · by_cases hg4 : x'.kind = "DaemonSet" ∧
              x'.name = "cloud-node-manager"
          · have hax : a = x' := by
              rw [updateSecret_mismatch cfg x' hg1] at ha
              exact (Option.some.inj ha).symm
            have hb2 : Provider.updateControllerPod cfg x' = some b := by
              rw [← hax]
              exact hb
            have hbx : b = x' := by
              rw [updateControllerPod_mismatch cfg x' hg2] at hb2
              exact (Option.some.inj hb2).symm
            have hc2 : Provider.updateControllerDeployment cfg x' =
                some c := by
              rw [← hbx]
              exact hc
            have hcx : c = x' := by
              rw [updateControllerDeployment_mismatch cfg x' hg3] at hc2
              exact (Option.some.inj hc2).symm
            have h42 : Provider.updateNode cfg x' = some y := by
              rw [← hcx]
              exact h4
            have hyko : y.kind = "DaemonSet" := hyk.trans hg4.1
            refine ⟨?_, ?_, ?_, ?_⟩
            · exact updateSecret_mismatch cfg y (kind_clash hyko (by decide))
            · exact updateControllerPod_mismatch cfg y
                (kind_clash hyko (by decide))
            · exact updateControllerDeployment_mismatch cfg y
                (kind_clash hyko (by decide))
            · exact updateNode_idem cfg h42
          · refine ⟨?_, ?_, ?_, ?_⟩
            · exact updateSecret_mismatch cfg y
                (mismatch_transfer hyk hyn hg1)
            · exact updateControllerPod_mismatch cfg y
                (mismatch_transfer hyk hyn hg2)
            · exact updateControllerDeployment_mismatch cfg y
                (mismatch_transfer hyk hyn hg3)
            · exact updateNode_mismatch cfg y
                (mismatch_transfer hyk hyn hg4)
  obtain ⟨hsec, hpod, hdep, hnode⟩ := hfour
  exact providerPipeline_fix app cfg y hLy hRy hsec hpod hdep hnode

/-- Concrete instantiation of the provider-pipeline idempotence theorem:
a registry-configured snapshot, a base document, its one-pass image, and
the second pass fixing that image. -/
theorem provider_pipeline_idempotent_witness :
    ((([("image-registry", Val.str "rocks")] :
        List (String × Val)).map Prod.fst).Nodup ∧
      clusterTagSafe [("image-registry", Val.str "rocks")] ∧
      providerPipeline "azure" [("image-registry", Val.str "rocks")]
        ⟨"ConfigMap", "cm", [], Option.none, [], Option.none, [], [],
          [⟨"c1", "a/b", [], []⟩], []⟩ =
        some ⟨"ConfigMap", "cm",
          [("juju.io/application", "azure"),
           ("juju.io/manifest", "cloud-provider-azure")],
          Option.none, [], Option.none, [], [],
          [⟨"c1", "rocks/b", [], []⟩], []⟩) ∧
    providerPipeline "azure" [("image-registry", Val.str "rocks")]
      ⟨"ConfigMap", "cm",
        [("juju.io/application", "azure"),
         ("juju.io/manifest", "cloud-provider-azure")],
        Option.none, [], Option.none, [], [],
        [⟨"c1", "rocks/b", [], []⟩], []⟩ =
      some ⟨"ConfigMap", "cm",
        [("juju.io/application", "azure"),
         ("juju.io/manifest", "cloud-provider-azure")],
        Option.none, [], Option.none, [], [],
        [⟨"c1", "rocks/b", [], []⟩], []⟩ :=
  ⟨⟨by decide, fun v hv _ => Option.noConfusion hv, by decide⟩,
   @provider_pipeline_idempotent "azure" [("image-registry", Val.str "rocks")]
     (by decide) (fun v hv _ => Option.noConfusion hv)
     ⟨"ConfigMap", "cm", [], Option.none, [], Option.none, [], [],
       [⟨"c1", "a/b", [], []⟩], []⟩
     ⟨"ConfigMap", "cm",
       [("juju.io/application", "azure"),
        ("juju.io/manifest", "cloud-provider-azure")],
       Option.none, [], Option.none, [], [],
       [⟨"c1", "rocks/b", [], []⟩], []⟩
     (by decide)⟩

end AzureCharm


